import Mathlib

/-!
# Verification of `matrix_lib/src/python_wrapper.cpp`

The file binds the C++ class `MathOperations` to the CPython object model: a
constructor (`PyMathOps_new`), a destructor (`PyMathOps_dealloc`), two methods
(`PyMathOps_add`, `PyMathOps_power`) and one property getter
(`PyMathOps_get_value`).

The embedding is a state-passing one.  A `World` holds the heap of `PyMathOps`
handles, the heap of native `MathOperations` objects, the interpreter's error
indicator and a trace of every call made on the native class.

* The class `MathOperations` is declared in a header that is not part of the
  repository, so it is a parameter of every entry point (`MathOperations σ`,
  with `σ` the type of its private state).  Its constructor and member
  functions may return or throw, and what they throw is either derived from
  `std::exception` or not.
* The pieces of the CPython C API that the file calls (`PyArg_ParseTuple`,
  `PyArg_ParseTupleAndKeywords`, `PyFloat_FromDouble`, `PyErr_SetString`,
  `Py_DECREF`, `tp_alloc`) are modelled after their documented behaviour on the
  built-in objects `None`, `bool`, `int`, `float`, `str` and on
  `MathOperations` handles.  The message `what()` of a native exception is a
  byte string, which `PyErr_SetString` decodes as UTF-8; the wording of the
  interpreter's own messages is left out, and boxing a double is taken to
  succeed.  Handle allocation can fail, as the source checks for it.
* An entry point returns a new reference, `NULL`, lets a C++ exception
  escape, or runs into undefined behaviour (`Ret`).
-/

namespace PythonWrapper

/-! ## Values -/

/-- A C `double`, given by its IEEE-754 binary64 bit pattern (sign bit 63,
exponent bits 62..52, fraction bits 51..0). -/
structure Double where
  bits : Nat
deriving DecidableEq, Repr

/-- The literal `0.0`. -/
def Double.zero : Double := ⟨0⟩

/-- The literal `1.0`. -/
def Double.one : Double := ⟨1023 * 2 ^ 52⟩

/-- Whether a double compares equal to zero (`+0.0` or `-0.0`). -/
def Double.isZero (d : Double) : Bool := d.bits % 2 ^ 63 == 0

/-- The objects of the foreign runtime that can reach the entry points. -/
inductive PyObject
  | None
  | BoolObj (b : Bool)
  | Long (n : Int)
  | Float (d : Double)
  | Unicode (s : String)
  | MathOps (addr : Nat)
deriving DecidableEq, Repr

/-- The exception classes of the foreign runtime that occur here. -/
inductive PyExc
  | TypeError
  | OverflowError
  | MemoryError
  | RuntimeError
  | SystemError
deriving DecidableEq, Repr

/-- The content of the error indicator.  `text` is `some m` when the exception
carries the text `m` that was handed to `PyErr_SetString`; it is `none` when
the exception carries no such text: the interpreter composed the message
itself (its wording is not modelled), or the message was dropped. -/
structure PyErr where
  exc : PyExc
  text : Option String
deriving DecidableEq, Repr

/-- What a C++ `throw` can carry out of the native class: an object of a class
derived from `std::exception`, with the bytes of the C string `what()` returns
(each below 256, read up to the first zero byte), or a value of any other
type. -/
inductive Thrown
  | std_exception (what : List Nat)
  | other
deriving DecidableEq, Repr

/-- Outcome of a call into native code: normal return or a thrown value. -/
inductive Native (α : Type)
  | ret (a : α)
  | throw (t : Thrown)
deriving DecidableEq, Repr

/-- The interface of the C++ class `MathOperations` as the wrapper uses it.  The
header declaring the class is not in the repository, so the class is a
parameter: `σ` is its private state, `ctor` is `MathOperations(double)`, and
each member function may change the state and either returns a `double` or
throws. -/
structure MathOperations (σ : Type) where
  ctor : Double → Native σ
  add : σ → Double → σ × Native Double
  power : σ → Double → Bool → σ × Native Double
  get_value : σ → σ × Native Double

/-- The struct `PyMathOps` behind a handle: the reference count of the object
header and the owned pointer `cpp_obj` (`none` is the null pointer). -/
structure PyMathOps where
  ob_refcnt : Nat
  cpp_obj : Option Nat
deriving DecidableEq, Repr

/-- One call on the native class, as recorded in the trace.  `new self v r` is
the statement `self->cpp_obj = new MathOperations(v)` (`r = none` when the
constructor threw), `delete self p` is `delete self->cpp_obj` run by the
deallocator of `self` on the live native object `p`. -/
inductive Event
  | new (self : Nat) (initial_value : Double) (obj : Option Nat)
  | delete (self : Nat) (obj : Nat)
  | add (obj : Nat) (x : Double)
  | power (obj : Nat) (exponent : Double) (absolute : Bool)
  | get_value (obj : Nat)
deriving DecidableEq, Repr

/-- The state the entry points act on. -/
structure World (σ : Type) where
  /-- Live `PyMathOps` handles, by address. -/
  objects : List (Nat × PyMathOps)
  /-- Address the next allocated handle gets. -/
  nextObject : Nat
  /-- Live native objects, by address. -/
  natives : List (Nat × σ)
  /-- Address the next native object gets. -/
  nextNative : Nat
  /-- Number of handle allocations the runtime can still serve. -/
  memory : Nat
  /-- The error indicator of the foreign runtime. -/
  err : Option PyErr
  /-- Calls made on the native class so far, oldest first. -/
  trace : List Event
deriving DecidableEq, Repr

/-- What an entry point hands back: a new reference, `NULL` (an error is
signalled through the error indicator), a C++ exception that left the entry
point uncaught, or undefined behaviour (null or dangling pointer dereference,
read of an unwritten variable). -/
inductive Ret
  | value (o : PyObject)
  | null
  | escaped (t : Thrown)
  | undefined
deriving DecidableEq, Repr

/-! ## Heaps as association lists -/

/-- Value stored at address `a`. -/
def find {β : Type} (a : Nat) : List (Nat × β) → Option β
  | [] => none
  | (k, v) :: rest => if k = a then some v else find a rest

/-- Remove address `a`. -/
def erase {β : Type} (a : Nat) : List (Nat × β) → List (Nat × β)
  | [] => []
  | (k, v) :: rest => if k = a then erase a rest else (k, v) :: erase a rest

/-- Overwrite the value stored at address `a`. -/
def store {β : Type} (a : Nat) (v : β) : List (Nat × β) → List (Nat × β)
  | [] => []
  | (k, u) :: rest => if k = a then (k, v) :: store a v rest else (k, u) :: store a v rest

/-- The world before any call: empty heaps, clear error indicator, empty
trace, and room for `memory` handles. -/
def World.init (σ : Type) (memory : Nat) : World σ :=
  { objects := [], nextObject := 0, natives := [], nextNative := 0,
    memory := memory, err := none, trace := [] }

/-! ## The CPython calls used by the wrapper -/

/-- Floor of the binary logarithm, by halving at most `fuel` times. -/
def log2Fuel : Nat → Nat → Nat
  | 0, _ => 0
  | fuel + 1, a => if 2 ≤ a then log2Fuel fuel (a / 2) + 1 else 0

/-- The conversion `PyLong_AsDouble`: nearest binary64 value, ties to even;
`none` when the integer is too large for a finite double. -/
def PyLong_AsDouble (n : Int) : Option Double :=
  let a := n.natAbs
  if a = 0 then some Double.zero
  else
    let sign := if n < 0 then 2 ^ 63 else 0
    let e := log2Fuel a a
    if e ≤ 52 then
      some ⟨sign + (e + 1023) * 2 ^ 52 + (a * 2 ^ (52 - e) - 2 ^ 52)⟩
    else
      let sh := e - 52
      let q := a / 2 ^ sh
      let r := a % 2 ^ sh
      let half := 2 ^ (sh - 1)
      let q1 := if half < r ∨ (r = half ∧ q % 2 = 1) then q + 1 else q
      let body := (e + 1023) * 2 ^ 52 + (q1 - 2 ^ 52)
      if 2047 * 2 ^ 52 ≤ body then none else some ⟨sign + body⟩

/-- The conversion `PyFloat_AsDouble`, which the format unit `d` applies: a
`float` gives its value, `int` and `bool` are converted, anything else is a
`TypeError`. -/
def PyFloat_AsDouble : PyObject → Except PyErr Double
  | .Float d => .ok d
  | .Long n =>
    match PyLong_AsDouble n with
    | some d => .ok d
    | none => .error ⟨.OverflowError, none⟩
  | .BoolObj b => .ok (if b then Double.one else Double.zero)
  | .None => .error ⟨.TypeError, none⟩
  | .Unicode _ => .error ⟨.TypeError, none⟩
  | .MathOps _ => .error ⟨.TypeError, none⟩

/-- The truth test `PyObject_IsTrue`, which the format unit `p` applies. -/
def PyObject_IsTrue : PyObject → Bool
  | .None => false
  | .BoolObj b => b
  | .Long n => n != 0
  | .Float d => !d.isZero
  | .Unicode s => s != ""
  | .MathOps _ => true

/-- `PyFloat_FromDouble`: box a double (the allocation of the box is taken to
succeed). -/
def PyFloat_FromDouble (d : Double) : PyObject := .Float d

/-- Whether a byte is a UTF-8 continuation byte (`10xxxxxx`). -/
def isContinuation (b : Nat) : Bool := 0x80 ≤ b && b < 0xC0

/-- Strict UTF-8 decoding of a byte string: sequences of one to four bytes,
no stray or missing continuation byte, no overlong form, no surrogate, no
code point above U+10FFFF. -/
def decodeUTF8 : List Nat → Option (List Char)
  | [] => some []
  | b0 :: rest =>
    if b0 < 0x80 then
      match decodeUTF8 rest with
      | some cs => some (Char.ofNat b0 :: cs)
      | none => none
    else if 0xC2 ≤ b0 ∧ b0 < 0xE0 then
      match rest with
      | b1 :: rest1 =>
        if isContinuation b1 then
          match decodeUTF8 rest1 with
          | some cs => some (Char.ofNat ((b0 % 32) * 64 + b1 % 64) :: cs)
          | none => none
        else none
      | _ => none
    else if 0xE0 ≤ b0 ∧ b0 < 0xF0 then
      match rest with
      | b1 :: b2 :: rest2 =>
        let c := (b0 % 16) * 4096 + (b1 % 64) * 64 + b2 % 64
        if isContinuation b1 ∧ isContinuation b2 ∧ 0x800 ≤ c ∧
            ¬(0xD800 ≤ c ∧ c < 0xE000) then
          match decodeUTF8 rest2 with
          | some cs => some (Char.ofNat c :: cs)
          | none => none
        else none
      | _ => none
    else if 0xF0 ≤ b0 ∧ b0 < 0xF5 then
      match rest with
      | b1 :: b2 :: b3 :: rest3 =>
        let c := (b0 % 8) * 262144 + (b1 % 64) * 4096 + (b2 % 64) * 64 + b3 % 64
        if isContinuation b1 ∧ isContinuation b2 ∧ isContinuation b3 ∧ 0x10000 ≤ c ∧
            c < 0x110000 then
          match decodeUTF8 rest3 with
          | some cs => some (Char.ofNat c :: cs)
          | none => none
        else none
      | _ => none
    else none

/-- `PyUnicode_FromString(string)`: the text of a C string, which ends at the
first zero byte, decoded as UTF-8; `none` (`NULL`) when it does not decode. -/
def PyUnicode_FromString (string : List Nat) : Option String :=
  match decodeUTF8 (string.takeWhile (fun b => b ≠ 0)) with
  | some cs => some (String.mk cs)
  | none => none

/-- `PyErr_SetString(exc, string)`: raise `exc` with the text that
`PyUnicode_FromString(string)` gives.  When the C string is not valid UTF-8
there is no text object and `exc` is raised without a message (interpreters
that skip the raise leave the decoder's own error instead; either way the
message is not in the indicator). -/
def PyErr_SetString {σ : Type} (w : World σ) (exc : PyExc) (string : List Nat) : World σ :=
  { w with err := some ⟨exc, PyUnicode_FromString string⟩ }

deriving instance DecidableEq for Except

/-- A value written through an output pointer of the argument parser. -/
inductive CVal
  | double (x : Double)
  | int (n : Int)
deriving DecidableEq, Repr

/-- Conversion of one argument by one format unit: `d` (C double) or `p`
(truth value stored in a C int). -/
def convertsimple (c : Char) (arg : PyObject) : Except PyErr CVal :=
  if c = 'd' then
    match PyFloat_AsDouble arg with
    | .ok x => .ok (.double x)
    | .error e => .error e
  else if c = 'p' then .ok (.int (if PyObject_IsTrue arg then 1 else 0))
  else .error ⟨.SystemError, none⟩

/-- The format units of a format string, without the `|` marker. -/
def formatUnits (format : String) : List Char :=
  format.toList.filter (fun c => c ≠ '|')

/-- Number of required parameters: the units before `|`. -/
def formatMin (format : String) : Nat :=
  (format.toList.takeWhile (fun c => c ≠ '|')).length

/-- The positional part of `PyArg_ParseTuple`: convert `args` by the units in
turn.  The result has one slot per unit, `none` for an output variable that
was not written. -/
def convertArgs : List Char → List PyObject → Except PyErr (List (Option CVal))
  | [], _ => .ok []
  | _ :: units, [] =>
    match convertArgs units [] with
    | .ok vs => .ok (none :: vs)
    | .error e => .error e
  | c :: units, a :: args =>
    match convertsimple c a with
    | .error e => .error e
    | .ok v =>
      match convertArgs units args with
      | .ok vs => .ok (some v :: vs)
      | .error e => .error e

/-- `PyArg_ParseTuple(args, format, ...)`: the number of arguments must lie
between the number of required units and the number of units, and each
argument must convert. -/
def PyArg_ParseTuple (args : List PyObject) (format : String) :
    Except PyErr (List (Option CVal)) :=
  if args.length < formatMin format ∨ (formatUnits format).length < args.length then
    .error ⟨.TypeError, none⟩
  else convertArgs (formatUnits format) args

/-- The main loop of `PyArg_ParseTupleAndKeywords`.  Parameter `i` is taken from
the tuple when `i < nargs`, otherwise from the dictionary under its name in
`kwlist`; `nkwargs` counts the dictionary entries not consumed yet.  A missing
required parameter is a `TypeError`; a missing optional one leaves its output
variable untouched.  Returns the slots and the remaining `nkwargs`. -/
def parseKeywords (args : List PyObject) (kwargs : List (String × PyObject)) (min : Nat) :
    Nat → List Char → List String → Nat → Except PyErr (List (Option CVal) × Nat)
  | i, c :: units, name :: kwlist, nkwargs =>
    let current : Option PyObject :=
      if i < args.length then args.get? i
      else if 0 < nkwargs then kwargs.lookup name
      else none
    match current with
    | some arg =>
      match convertsimple c arg with
      | .error e => .error e
      | .ok v =>
        match parseKeywords args kwargs min (i + 1) units kwlist
            (if i < args.length then nkwargs else nkwargs - 1) with
        | .ok (vs, n) => .ok (some v :: vs, n)
        | .error e => .error e
    | none =>
      if i < min then .error ⟨.TypeError, none⟩
      else
        match parseKeywords args kwargs min (i + 1) units kwlist nkwargs with
        | .ok (vs, n) => .ok (none :: vs, n)
        | .error e => .error e
  | _, _, _, nkwargs => .ok ([], nkwargs)

/-- `PyArg_ParseTupleAndKeywords(args, kwargs, format, kwlist, ...)`.  More
arguments than parameters is a `TypeError`; so is a dictionary entry that the
loop did not consume (an unknown keyword, or a parameter given both by
position and by name). -/
def PyArg_ParseTupleAndKeywords (args : List PyObject) (kwargs : List (String × PyObject))
    (format : String) (kwlist : List String) : Except PyErr (List (Option CVal)) :=
  if kwlist.length < args.length + kwargs.length then .error ⟨.TypeError, none⟩
  else
    match parseKeywords args kwargs (formatMin format) 0 (formatUnits format) kwlist
        kwargs.length with
    | .error e => .error e
    | .ok (vs, n) => if 0 < n then .error ⟨.TypeError, none⟩ else .ok vs

/-- Content of a C `double` variable that held `initial` before the parser ran
and whose output slot is `slot`. -/
def readDouble (initial : Double) : Option CVal → Double
  | some (.double v) => v
  | _ => initial

/-- Content of a C `int` variable that held `initial` before the parser ran and
whose output slot is `slot`. -/
def readInt (initial : Int) : Option CVal → Int
  | some (.int n) => n
  | _ => initial

/-- `type->tp_alloc(type, 0)`: a zero-filled `PyMathOps` with one reference,
or `NULL` with `MemoryError` set when the runtime is out of memory. -/
def tp_alloc {σ : Type} (w : World σ) : World σ × Option Nat :=
  match w.memory with
  | 0 => ({ w with err := some ⟨.MemoryError, none⟩ }, none)
  | m + 1 =>
    ({ w with objects := (w.nextObject, ⟨1, none⟩) :: w.objects,
              nextObject := w.nextObject + 1, memory := m }, some w.nextObject)

/-! ## The entry points of `python_wrapper.cpp` -/

/-- The destructor `PyMathOps_dealloc(self)`: `delete self->cpp_obj` (nothing
happens for a null pointer), then `tp_free(self)`.  `none` is undefined
behaviour: `self` is not a live handle, or `cpp_obj` dangles. -/
def PyMathOps_dealloc {σ : Type} (w : World σ) (self : Nat) : Option (World σ) :=
  match find self w.objects with
  | none => none
  | some o =>
    let afterDelete : Option (World σ) :=
      match o.cpp_obj with
      | none => some w
      | some p =>
        match find p w.natives with
        | none => none
        | some _ =>
          some { w with natives := erase p w.natives, trace := w.trace ++ [.delete self p] }
    match afterDelete with
    | none => none
    | some w1 => some { w1 with objects := erase self w1.objects, memory := w1.memory + 1 }

/-- `Py_DECREF(self)`: drop one reference; the last one runs the type's
`tp_dealloc`, which is `PyMathOps_dealloc`. -/
def Py_DECREF {σ : Type} (w : World σ) (self : Nat) : Option (World σ) :=
  match find self w.objects with
  | none => none
  | some o =>
    if o.ob_refcnt ≤ 1 then PyMathOps_dealloc w self
    else some { w with objects := store self { o with ob_refcnt := o.ob_refcnt - 1 } w.objects }

/-- The constructor `PyMathOps_new(type, args, kwargs)`. -/
def PyMathOps_new {σ : Type} (M : MathOperations σ) (w : World σ) (args : List PyObject)
    (kwargs : List (String × PyObject)) : World σ × Ret :=
  match tp_alloc w with
  | (w0, none) => (w0, .null)
  | (w0, some self) =>
    match PyArg_ParseTupleAndKeywords args kwargs "|d" ["initial_value"] with
    | .error e =>
      match Py_DECREF { w0 with err := some e } self with
      | none => (w0, .undefined)
      | some w1 => (w1, .null)
    | .ok [slot] =>
      let initial_value : Double := readDouble Double.zero slot
      match M.ctor initial_value with
      | .ret obj =>
        ({ w0 with
            natives := (w0.nextNative, obj) :: w0.natives,
            nextNative := w0.nextNative + 1,
            objects := store self ⟨1, some w0.nextNative⟩ w0.objects,
            trace := w0.trace ++ [.new self initial_value (some w0.nextNative)] },
          .value (.MathOps self))
      | .throw (.std_exception what) =>
        match Py_DECREF { w0 with trace := w0.trace ++ [.new self initial_value none] } self with
        | none => (w0, .undefined)
        | some w1 => (PyErr_SetString w1 .RuntimeError what, .null)
      | .throw .other =>
        ({ w0 with trace := w0.trace ++ [.new self initial_value none] }, .escaped .other)
    | .ok _ => (w0, .undefined)

/-- The dereference `((PyMathOps*)self)->cpp_obj->...`: the address and state
of the native object behind a handle; `none` when `self` is not a live handle,
`cpp_obj` is null, or `cpp_obj` dangles. -/
def cpp_obj {σ : Type} (w : World σ) (self : Nat) : Option (Nat × σ) :=
  match find self w.objects with
  | none => none
  | some o =>
    match o.cpp_obj with
    | none => none
    | some p =>
      match find p w.natives with
      | none => none
      | some st => some (p, st)

/-- The method `PyMathOps_add(self, args)`. -/
def PyMathOps_add {σ : Type} (M : MathOperations σ) (w : World σ) (self : Nat)
    (args : List PyObject) : World σ × Ret :=
  match PyArg_ParseTuple args "d" with
  | .error e => ({ w with err := some e }, .null)
  | .ok [some (.double x)] =>
    match cpp_obj w self with
    | none => (w, .undefined)
    | some (p, st) =>
      let w1 : World σ :=
        { w with natives := store p (M.add st x).1 w.natives, trace := w.trace ++ [.add p x] }
      match (M.add st x).2 with
      | .ret result => (w1, .value (PyFloat_FromDouble result))
      | .throw (.std_exception what) => (PyErr_SetString w1 .RuntimeError what, .null)
      | .throw .other => (w1, .escaped .other)
  | .ok _ => (w, .undefined)

/-- The method `PyMathOps_power(self, args, kwargs)`. -/
def PyMathOps_power {σ : Type} (M : MathOperations σ) (w : World σ) (self : Nat)
    (args : List PyObject) (kwargs : List (String × PyObject)) : World σ × Ret :=
  match PyArg_ParseTupleAndKeywords args kwargs "d|p" ["exponent", "absolute"] with
  | .error e => ({ w with err := some e }, .null)
  | .ok [some (.double exponent), slot] =>
    let absolute : Int := readInt 0 slot
    match cpp_obj w self with
    | none => (w, .undefined)
    | some (p, st) =>
      let w1 : World σ :=
        { w with natives := store p (M.power st exponent (absolute != 0)).1 w.natives,
                 trace := w.trace ++ [.power p exponent (absolute != 0)] }
      match (M.power st exponent (absolute != 0)).2 with
      | .ret result => (w1, .value (PyFloat_FromDouble result))
      | .throw (.std_exception what) => (PyErr_SetString w1 .RuntimeError what, .null)
      | .throw .other => (w1, .escaped .other)
  | .ok _ => (w, .undefined)

/-- The property getter `PyMathOps_get_value(self, closure)`. -/
def PyMathOps_get_value {σ : Type} (M : MathOperations σ) (w : World σ) (self : Nat) :
    World σ × Ret :=
  match cpp_obj w self with
  | none => (w, .undefined)
  | some (p, st) =>
    let w1 : World σ :=
      { w with natives := store p (M.get_value st).1 w.natives,
               trace := w.trace ++ [.get_value p] }
    match (M.get_value st).2 with
    | .ret value => (w1, .value (PyFloat_FromDouble value))
    | .throw (.std_exception what) => (PyErr_SetString w1 .RuntimeError what, .null)
    | .throw .other => (w1, .escaped .other)

/-! ## Sequences of calls made by the foreign runtime -/

/-- A call the foreign runtime makes on the binding. -/
inductive Call
  | construct (args : List PyObject) (kwargs : List (String × PyObject))
  | destroy (self : Nat)
  | add (self : Nat) (args : List PyObject)
  | power (self : Nat) (args : List PyObject) (kwargs : List (String × PyObject))
  | value (self : Nat)
deriving DecidableEq, Repr

/-- The world after an entry point has run, unless it ran into undefined
behaviour.  A call that an exception left uncaught still counts: the sequence
goes on from the world at the point of the throw. -/
def settle {σ : Type} : World σ × Ret → Option (World σ)
  | (_, .undefined) => none
  | (w, _) => some w

/-- One call.  `destroy` is the runtime reclaiming a handle, which runs
`PyMathOps_dealloc`; it is `none` on a handle that is not live, in particular
on one that was destroyed before. -/
def step {σ : Type} (M : MathOperations σ) (w : World σ) : Call → Option (World σ)
  | .construct args kwargs => settle (PyMathOps_new M w args kwargs)
  | .destroy self => PyMathOps_dealloc w self
  | .add self args => settle (PyMathOps_add M w self args)
  | .power self args kwargs => settle (PyMathOps_power M w self args kwargs)
  | .value self => settle (PyMathOps_get_value M w self)

/-- A sequence of calls, each on the world the previous one left. -/
def run {σ : Type} (M : MathOperations σ) : World σ → List Call → Option (World σ)
  | w, [] => some w
  | w, c :: cs =>
    match step M w c with
    | none => none
    | some w1 => run M w1 cs

/-- The pairs (handle, native object) of the successful `new` statements in a
trace. -/
def created : List Event → List (Nat × Nat)
  | [] => []
  | .new self _ (some p) :: t => (self, p) :: created t
  | _ :: t => created t

/-- The pairs (handle, native object) of the `delete` statements in a trace:
the handle is the one whose deallocator ran the statement. -/
def deleted : List Event → List (Nat × Nat)
  | [] => []
  | .delete self p :: t => (self, p) :: deleted t
  | _ :: t => deleted t

/-- The pairs (handle, native object) of the live handles with a non-null
`cpp_obj`. -/
def owned : List (Nat × PyMathOps) → List (Nat × Nat)
  | [] => []
  | (a, ⟨_, some p⟩) :: t => (a, p) :: owned t
  | (_, ⟨_, none⟩) :: t => owned t

/-- Consistency of the two heaps with the trace: handle addresses are below
the address counter and pairwise different; the live native objects are the
ones some live handle points to; the ownership pairs created so far are the
deleted ones together with those of the live handles; native addresses in the
trace are below the address counter and no native address was created
twice. -/
structure Consistent {σ : Type} (w : World σ) : Prop where
  objects_fresh : ∀ a ∈ w.objects.map Prod.fst, a < w.nextObject
  objects_nodup : (w.objects.map Prod.fst).Nodup
  natives_owned : (w.natives.map Prod.fst).Perm ((owned w.objects).map Prod.snd)
  created_split : (created w.trace).Perm (deleted w.trace ++ owned w.objects)
  created_fresh : ∀ sp ∈ created w.trace, sp.2 < w.nextNative
  created_nodup : ((created w.trace).map Prod.snd).Nodup

/-! ## Native classes used in the examples -/

/-- A stand-in for the native class with scripted faults.  Its state is the
stored double: the constructor stores its argument unless `ctorFault` is set,
`get_value` returns the stored double, `add` stores and returns its operand
and `power` returns its exponent, unless `callFault` is set, in which case the
three member functions throw it. -/
def scripted (ctorFault callFault : Option Thrown) : MathOperations Double :=
  { ctor := fun v =>
      match ctorFault with
      | some t => .throw t
      | none => .ret v
    add := fun st x =>
      match callFault with
      | some t => (st, .throw t)
      | none => (x, .ret x)
    power := fun st e _ =>
      match callFault with
      | some t => (st, .throw t)
      | none => (st, .ret e)
    get_value := fun st =>
      match callFault with
      | some t => (st, .throw t)
      | none => (st, .ret st) }

/-- The C string `"boom"`. -/
def boom : List Nat := [0x62, 0x6F, 0x6F, 0x6D]

/-- The C string `"caf\xe9"`: the word café in Latin-1, which is not valid
UTF-8. -/
def cafeLatin1 : List Nat := [0x63, 0x61, 0x66, 0xE9]

/-- A world with one constructed handle (address 0) that owns the native
object 0 holding `v`. -/
def oneHandle (v : Double) : World Double :=
  { objects := [(0, ⟨1, some 0⟩)], nextObject := 1, natives := [(0, v)], nextNative := 1,
    memory := 0, err := none, trace := [.new 0 v (some 0)] }

/-- Whether an object has a numeric value for the format unit `d`: `float`,
`int` and `bool` have, `None`, `str` and handles have not. -/
def PyObject.isNumeric : PyObject → Bool
  | .Float _ => true
  | .Long _ => true
  | .BoolObj _ => true
  | _ => false

/-- What the methods leave untouched: the handle heap, the addresses in the
native heap, the two address counters and the ownership pairs in the trace. -/
def Untouched {σ : Type} (w w1 : World σ) : Prop :=
  w1.objects = w.objects ∧ w1.nextObject = w.nextObject ∧
  w1.natives.map Prod.fst = w.natives.map Prod.fst ∧ w1.nextNative = w.nextNative ∧
  created w1.trace = created w.trace ∧ deleted w1.trace = deleted w.trace

/-- The world after constructing a second handle (holding 7, as a bit pattern)
next to `oneHandle Double.zero`, calling `add` on the first and destroying
the second. -/
def exampleLater : World Double :=
  { objects := [(0, ⟨1, some 0⟩)], nextObject := 2, natives := [(0, ⟨5⟩)], nextNative := 2,
    memory := 1, err := none,
    trace := [.new 0 Double.zero (some 0), .new 1 ⟨7⟩ (some 1), .add 0 ⟨5⟩, .delete 1 1] }

/-- The outcome of a successful construction with initial value `v`, from
world `w` to world `w1` with result `h`: the native constructor returned an
object `obj` for `v`, `h` is the new handle, its `cpp_obj` points to that
object, the trace gained the one `new` statement, and the `value` getter
returns `v` provided the native `get_value` returns on `obj` the value it was
constructed with. -/
def ConstructedWith {σ : Type} (M : MathOperations σ) (w w1 : World σ) (h : PyObject)
    (v : Double) : Prop :=
  ∃ obj, M.ctor v = .ret obj ∧
    h = .MathOps w.nextObject ∧
    cpp_obj w1 w.nextObject = some (w.nextNative, obj) ∧
    w1.trace = w.trace ++ [.new w.nextObject v (some w.nextNative)] ∧
    ((M.get_value obj).2 = .ret v →
      (PyMathOps_get_value M w1 w.nextObject).2 = .value (.Float v))

/-! ## Facts about the argument parser -/

theorem formatUnits_d : formatUnits "d" = ['d'] := by decide

theorem formatMin_d : formatMin "d" = 1 := by decide

theorem formatUnits_d_p : formatUnits "d|p" = ['d', 'p'] := by decide

theorem formatMin_d_p : formatMin "d|p" = 1 := by decide

theorem formatUnits_opt_d : formatUnits "|d" = ['d'] := by decide

theorem formatMin_opt_d : formatMin "|d" = 0 := by decide

theorem convertsimple_d (a : PyObject) :
    convertsimple 'd' a =
      match PyFloat_AsDouble a with
      | .ok x => .ok (.double x)
      | .error e => .error e := by
  simp [convertsimple]

theorem PyFloat_AsDouble_of_not_numeric (a : PyObject) (h : a.isNumeric = false) :
    PyFloat_AsDouble a = .error ⟨.TypeError, none⟩ := by
  cases a <;> simp_all [PyObject.isNumeric, PyFloat_AsDouble]

/-- A tuple whose first element has no numeric value is rejected by the format
`d` with a `TypeError`. -/
theorem parseTuple_d_not_numeric (args : List PyObject) (a : PyObject)
    (hhead : args.head? = some a) (hnum : a.isNumeric = false) :
    PyArg_ParseTuple args "d" = .error ⟨.TypeError, none⟩ := by
  match args, hhead with
  | [b], hb =>
    simp only [List.head?_cons, Option.some.injEq] at hb
    subst hb
    simp [PyArg_ParseTuple, formatUnits_d, formatMin_d, convertArgs, convertsimple_d,
      PyFloat_AsDouble_of_not_numeric _ hnum]
  | b :: c :: rest, _ =>
    simp [PyArg_ParseTuple, formatUnits_d, formatMin_d]

/-- Arguments whose `exponent` (first positional argument, or the keyword
`exponent` when there is no positional argument) has no numeric value are
rejected by the format `d|p` with a `TypeError`. -/
theorem parseKeywords_d_p_not_numeric (args : List PyObject)
    (kwargs : List (String × PyObject)) (a : PyObject)
    (hexp : (args.head? <|> kwargs.lookup "exponent") = some a)
    (hnum : a.isNumeric = false) :
    PyArg_ParseTupleAndKeywords args kwargs "d|p" ["exponent", "absolute"]
      = .error ⟨.TypeError, none⟩ := by
  unfold PyArg_ParseTupleAndKeywords
  split
  · rfl
  · rw [formatUnits_d_p, formatMin_d_p]
    match args, hexp with
    | b :: rest, hb =>
      simp only [List.head?_cons, Option.some_orElse, Option.some.injEq] at hb
      subst hb
      simp [parseKeywords, convertsimple_d, PyFloat_AsDouble_of_not_numeric _ hnum]
    | [], hb =>
      simp only [List.head?_nil, Option.none_orElse] at hb
      have hpos : 0 < kwargs.length := by
        cases kwargs with
        | nil => simp at hb
        | cons _ _ => simp
      simp [parseKeywords, hpos, hb, convertsimple_d, PyFloat_AsDouble_of_not_numeric _ hnum]

/-! ## Results of the method entry points -/

/-- C9: on a constructed handle (`cpp_obj` points to the live native object
`p` in state `st`), a well-typed call whose native operation returns `r` makes
exactly one call on the native object, with the parsed arguments, and returns
the float `r`: for `add`, for `power` and for the `value` getter. -/
theorem success_returns_native_result {σ : Type} (M : MathOperations σ) (w : World σ)
    (self p : Nat) (st : σ) (hobj : cpp_obj w self = some (p, st)) :
    (∀ args x r, PyArg_ParseTuple args "d" = .ok [some (.double x)] →
        (M.add st x).2 = .ret r →
        PyMathOps_add M w self args =
          ({ w with natives := store p (M.add st x).1 w.natives,
                    trace := w.trace ++ [.add p x] }, .value (.Float r))) ∧
    (∀ args kwargs e slot r,
        PyArg_ParseTupleAndKeywords args kwargs "d|p" ["exponent", "absolute"]
          = .ok [some (.double e), slot] →
        (M.power st e (readInt 0 slot != 0)).2 = .ret r →
        PyMathOps_power M w self args kwargs =
          ({ w with natives := store p (M.power st e (readInt 0 slot != 0)).1 w.natives,
                    trace := w.trace ++ [.power p e (readInt 0 slot != 0)] },
            .value (.Float r))) ∧
    (∀ r, (M.get_value st).2 = .ret r →
        PyMathOps_get_value M w self =
          ({ w with natives := store p (M.get_value st).1 w.natives,
                    trace := w.trace ++ [.get_value p] }, .value (.Float r))) := by
  refine ⟨?_, ?_, ?_⟩
  · intro args x r hparse hret
    simp [PyMathOps_add, hparse, hobj, hret, PyFloat_FromDouble]
  · intro args kwargs e slot r hparse hret
    simp [PyMathOps_power, hparse, hobj, hret, PyFloat_FromDouble]
  · intro r hret
    simp [PyMathOps_get_value, hobj, hret, PyFloat_FromDouble]

/-- Witness for C9 on a handle holding 7 (as a bit pattern), with operand 5: the
three entry points return the native results. -/
theorem success_returns_native_result_witness :
    cpp_obj (oneHandle ⟨7⟩) 0 = some (0, ⟨7⟩) ∧
    PyArg_ParseTuple [.Float ⟨5⟩] "d" = .ok [some (.double ⟨5⟩)] ∧
    ((scripted none none).add ⟨7⟩ ⟨5⟩).2 = .ret ⟨5⟩ ∧
    (PyMathOps_add (scripted none none) (oneHandle ⟨7⟩) 0 [.Float ⟨5⟩]).2
      = .value (.Float ⟨5⟩) ∧
    PyArg_ParseTupleAndKeywords [.Float ⟨5⟩] [("absolute", .BoolObj true)] "d|p"
      ["exponent", "absolute"] = .ok [some (.double ⟨5⟩), some (.int 1)] ∧
    ((scripted none none).power ⟨7⟩ ⟨5⟩ (readInt 0 (some (.int 1)) != 0)).2 = .ret ⟨5⟩ ∧
    (PyMathOps_power (scripted none none) (oneHandle ⟨7⟩) 0 [.Float ⟨5⟩]
      [("absolute", .BoolObj true)]).2 = .value (.Float ⟨5⟩) ∧
    ((scripted none none).get_value ⟨7⟩).2 = .ret ⟨7⟩ ∧
    (PyMathOps_get_value (scripted none none) (oneHandle ⟨7⟩) 0).2 = .value (.Float ⟨7⟩) :=
  ⟨by decide, by decide, by decide,
    congrArg Prod.snd ((success_returns_native_result (scripted none none) (oneHandle ⟨7⟩)
      0 0 ⟨7⟩ (by decide)).1 [.Float ⟨5⟩] ⟨5⟩ ⟨5⟩ (by decide) (by decide)),
    by decide, by decide,
    congrArg Prod.snd ((success_returns_native_result (scripted none none) (oneHandle ⟨7⟩)
      0 0 ⟨7⟩ (by decide)).2.1 [.Float ⟨5⟩] [("absolute", .BoolObj true)] ⟨5⟩
      (some (.int 1)) ⟨5⟩ (by decide) (by decide)),
    by decide,
    congrArg Prod.snd ((success_returns_native_result (scripted none none) (oneHandle ⟨7⟩)
      0 0 ⟨7⟩ (by decide)).2.2 ⟨7⟩ (by decide))⟩

/-- C2, as stated, fails on a message that is not valid UTF-8: a native class
whose member functions throw an exception derived from `std::exception` with
`what()` = `"caf\xe9"` (Latin-1).  `add`, `power` and the `value` getter
return `NULL` with `RuntimeError` set, but the message is dropped: the
indicator carries no text. -/
theorem undecodable_message_dropped :
    PyUnicode_FromString cafeLatin1 = none ∧
    ((scripted none (some (.std_exception cafeLatin1))).add ⟨7⟩ ⟨5⟩).2
      = .throw (.std_exception cafeLatin1) ∧
    PyMathOps_add (scripted none (some (.std_exception cafeLatin1))) (oneHandle ⟨7⟩) 0
        [.Float ⟨5⟩]
      = ({ oneHandle ⟨7⟩ with trace := [.new 0 ⟨7⟩ (some 0), .add 0 ⟨5⟩],
                              err := some ⟨.RuntimeError, none⟩ }, .null) ∧
    PyMathOps_power (scripted none (some (.std_exception cafeLatin1))) (oneHandle ⟨7⟩) 0
        [.Float ⟨5⟩] []
      = ({ oneHandle ⟨7⟩ with trace := [.new 0 ⟨7⟩ (some 0), .power 0 ⟨5⟩ false],
                              err := some ⟨.RuntimeError, none⟩ }, .null) ∧
    PyMathOps_get_value (scripted none (some (.std_exception cafeLatin1))) (oneHandle ⟨7⟩) 0
      = ({ oneHandle ⟨7⟩ with trace := [.new 0 ⟨7⟩ (some 0), .get_value 0],
                              err := some ⟨.RuntimeError, none⟩ }, .null) := by
  decide

/-- C2, amended to messages that decode: on a constructed handle, a well-typed
call whose native operation throws an exception whose `what()` is valid UTF-8
for the text `m` returns `NULL` and leaves the error indicator set to
`RuntimeError` with text exactly `m`: for `add`, for `power` and for the
`value` getter. -/
theorem failure_sets_runtime_error {σ : Type} (M : MathOperations σ) (w : World σ)
    (self p : Nat) (st : σ) (what : List Nat) (m : String)
    (hobj : cpp_obj w self = some (p, st)) (hdecode : PyUnicode_FromString what = some m) :
    (∀ args x, PyArg_ParseTuple args "d" = .ok [some (.double x)] →
        (M.add st x).2 = .throw (.std_exception what) →
        (PyMathOps_add M w self args).2 = .null ∧
        (PyMathOps_add M w self args).1.err = some ⟨.RuntimeError, some m⟩) ∧
    (∀ args kwargs e slot,
        PyArg_ParseTupleAndKeywords args kwargs "d|p" ["exponent", "absolute"]
          = .ok [some (.double e), slot] →
        (M.power st e (readInt 0 slot != 0)).2 = .throw (.std_exception what) →
        (PyMathOps_power M w self args kwargs).2 = .null ∧
        (PyMathOps_power M w self args kwargs).1.err = some ⟨.RuntimeError, some m⟩) ∧
    ((M.get_value st).2 = .throw (.std_exception what) →
        (PyMathOps_get_value M w self).2 = .null ∧
        (PyMathOps_get_value M w self).1.err = some ⟨.RuntimeError, some m⟩) := by
  refine ⟨?_, ?_, ?_⟩
  · intro args x hparse hthrow
    simp [PyMathOps_add, hparse, hobj, hthrow, PyErr_SetString, hdecode]
  · intro args kwargs e slot hparse hthrow
    simp [PyMathOps_power, hparse, hobj, hthrow, PyErr_SetString, hdecode]
  · intro hthrow
    simp [PyMathOps_get_value, hobj, hthrow, PyErr_SetString, hdecode]

/-- Witness for amended C2 with a native class whose member functions throw
`std::runtime_error("boom")`. -/
theorem failure_sets_runtime_error_witness :
    cpp_obj (oneHandle ⟨7⟩) 0 = some (0, ⟨7⟩) ∧
    PyUnicode_FromString boom = some "boom" ∧
    PyArg_ParseTuple [.Float ⟨5⟩] "d" = .ok [some (.double ⟨5⟩)] ∧
    ((scripted none (some (.std_exception boom))).add ⟨7⟩ ⟨5⟩).2
      = .throw (.std_exception boom) ∧
    ((PyMathOps_add (scripted none (some (.std_exception boom))) (oneHandle ⟨7⟩) 0
        [.Float ⟨5⟩]).2 = .null ∧
      (PyMathOps_add (scripted none (some (.std_exception boom))) (oneHandle ⟨7⟩) 0
        [.Float ⟨5⟩]).1.err = some ⟨.RuntimeError, some "boom"⟩) ∧
    PyArg_ParseTupleAndKeywords [.Float ⟨5⟩] [] "d|p" ["exponent", "absolute"]
      = .ok [some (.double ⟨5⟩), none] ∧
    ((scripted none (some (.std_exception boom))).power ⟨7⟩ ⟨5⟩ (readInt 0 none != 0)).2
      = .throw (.std_exception boom) ∧
    ((PyMathOps_power (scripted none (some (.std_exception boom))) (oneHandle ⟨7⟩) 0
        [.Float ⟨5⟩] []).2 = .null ∧
      (PyMathOps_power (scripted none (some (.std_exception boom))) (oneHandle ⟨7⟩) 0
        [.Float ⟨5⟩] []).1.err = some ⟨.RuntimeError, some "boom"⟩) ∧
    ((scripted none (some (.std_exception boom))).get_value ⟨7⟩).2
      = .throw (.std_exception boom) ∧
    ((PyMathOps_get_value (scripted none (some (.std_exception boom))) (oneHandle ⟨7⟩) 0).2
        = .null ∧
      (PyMathOps_get_value (scripted none (some (.std_exception boom))) (oneHandle ⟨7⟩)
        0).1.err = some ⟨.RuntimeError, some "boom"⟩) :=
  ⟨by decide, by decide, by decide, by decide,
    (failure_sets_runtime_error (scripted none (some (.std_exception boom)))
      (oneHandle ⟨7⟩) 0 0 ⟨7⟩ boom "boom" (by decide) (by decide)).1 [.Float ⟨5⟩] ⟨5⟩
      (by decide) (by decide),
    by decide, by decide,
    (failure_sets_runtime_error (scripted none (some (.std_exception boom)))
      (oneHandle ⟨7⟩) 0 0 ⟨7⟩ boom "boom" (by decide) (by decide)).2.1 [.Float ⟨5⟩] [] ⟨5⟩
      none (by decide) (by decide),
    by decide,
    (failure_sets_runtime_error (scripted none (some (.std_exception boom)))
      (oneHandle ⟨7⟩) 0 0 ⟨7⟩ boom "boom" (by decide) (by decide)).2.2 (by decide)⟩

/-! ## Faults of the native class at the boundary -/

/-- C1, as stated, fails: a native class whose member functions throw a value
that is not derived from `std::exception` (as `throw 42;` does).  On a handle
made by `PyMathOps_new`, `add`, `power` and the `value` getter do not return
`NULL`: the thrown value leaves the entry point, and the error indicator stays
clear. -/
theorem foreign_throw_escapes :
    PyMathOps_new (scripted none (some .other)) (World.init Double 1) [.Float ⟨7⟩] []
      = (oneHandle ⟨7⟩, .value (.MathOps 0)) ∧
    PyMathOps_add (scripted none (some .other)) (oneHandle ⟨7⟩) 0 [.Float ⟨5⟩]
      = ({ oneHandle ⟨7⟩ with trace := [.new 0 ⟨7⟩ (some 0), .add 0 ⟨5⟩] },
          .escaped .other) ∧
    PyMathOps_power (scripted none (some .other)) (oneHandle ⟨7⟩) 0 [.Float ⟨5⟩] []
      = ({ oneHandle ⟨7⟩ with trace := [.new 0 ⟨7⟩ (some 0), .power 0 ⟨5⟩ false] },
          .escaped .other) ∧
    PyMathOps_get_value (scripted none (some .other)) (oneHandle ⟨7⟩) 0
      = ({ oneHandle ⟨7⟩ with trace := [.new 0 ⟨7⟩ (some 0), .get_value 0] },
          .escaped .other) ∧
    (oneHandle ⟨7⟩).err = none := by
  decide

/-- C1, amended to the faults the entry points catch: no exception derived from
`std::exception` leaves `add`, `power` or the `value` getter, whatever the
handle and the arguments; every `NULL` they return comes with the error
indicator set; and on a constructed handle a well-typed call whose native
operation throws an exception derived from `std::exception` returns `NULL`. -/
theorem std_exception_is_converted {σ : Type} (M : MathOperations σ) (w : World σ)
    (self : Nat) (args : List PyObject) (kwargs : List (String × PyObject)) :
    (∀ m, (PyMathOps_add M w self args).2 ≠ .escaped (.std_exception m)) ∧
    (∀ m, (PyMathOps_power M w self args kwargs).2 ≠ .escaped (.std_exception m)) ∧
    (∀ m, (PyMathOps_get_value M w self).2 ≠ .escaped (.std_exception m)) ∧
    ((PyMathOps_add M w self args).2 = .null →
      (PyMathOps_add M w self args).1.err ≠ none) ∧
    ((PyMathOps_power M w self args kwargs).2 = .null →
      (PyMathOps_power M w self args kwargs).1.err ≠ none) ∧
    ((PyMathOps_get_value M w self).2 = .null →
      (PyMathOps_get_value M w self).1.err ≠ none) ∧
    (∀ p st x m, cpp_obj w self = some (p, st) →
      PyArg_ParseTuple args "d" = .ok [some (.double x)] →
      (M.add st x).2 = .throw (.std_exception m) →
      (PyMathOps_add M w self args).2 = .null) ∧
    (∀ p st e slot m, cpp_obj w self = some (p, st) →
      PyArg_ParseTupleAndKeywords args kwargs "d|p" ["exponent", "absolute"]
        = .ok [some (.double e), slot] →
      (M.power st e (readInt 0 slot != 0)).2 = .throw (.std_exception m) →
      (PyMathOps_power M w self args kwargs).2 = .null) ∧
    (∀ p st m, cpp_obj w self = some (p, st) →
      (M.get_value st).2 = .throw (.std_exception m) →
      (PyMathOps_get_value M w self).2 = .null) := by
  refine ⟨?_, ?_, ?_, ?_, ?_, ?_, ?_, ?_, ?_⟩
  · intro m
    unfold PyMathOps_add
    repeat' split
    all_goals simp
  · intro m
    unfold PyMathOps_power
    split
    · simp
    · split
      · simp
      · dsimp only
        split
        all_goals simp
    · simp
  · intro m
    unfold PyMathOps_get_value
    repeat' split
    all_goals simp
  · unfold PyMathOps_add
    repeat' split
    all_goals simp [PyErr_SetString]
  · unfold PyMathOps_power
    split
    · simp
    · split
      · simp
      · dsimp only
        split
        all_goals simp [PyErr_SetString]
    · simp
  · unfold PyMathOps_get_value
    repeat' split
    all_goals simp [PyErr_SetString]
  · intro p st x m hobj hparse hthrow
    simp [PyMathOps_add, hparse, hobj, hthrow]
  · intro p st e slot m hobj hparse hthrow
    simp [PyMathOps_power, hparse, hobj, hthrow]
  · intro p st m hobj hthrow
    simp [PyMathOps_get_value, hobj, hthrow]

/-- Witness for amended C1 with a native class whose member functions throw
`std::runtime_error("boom")`: the hypotheses hold and the three entry points
return `NULL` with the error indicator set. -/
theorem std_exception_is_converted_witness :
    cpp_obj (oneHandle ⟨7⟩) 0 = some (0, ⟨7⟩) ∧
    PyArg_ParseTuple [.Float ⟨5⟩] "d" = .ok [some (.double ⟨5⟩)] ∧
    PyArg_ParseTupleAndKeywords [.Float ⟨5⟩] [] "d|p" ["exponent", "absolute"]
      = .ok [some (.double ⟨5⟩), none] ∧
    ((scripted none (some (.std_exception boom))).add ⟨7⟩ ⟨5⟩).2
      = .throw (.std_exception boom) ∧
    ((scripted none (some (.std_exception boom))).power ⟨7⟩ ⟨5⟩ (readInt 0 none != 0)).2
      = .throw (.std_exception boom) ∧
    ((scripted none (some (.std_exception boom))).get_value ⟨7⟩).2
      = .throw (.std_exception boom) ∧
    (PyMathOps_add (scripted none (some (.std_exception boom))) (oneHandle ⟨7⟩) 0
      [.Float ⟨5⟩]).2 = .null ∧
    (PyMathOps_power (scripted none (some (.std_exception boom))) (oneHandle ⟨7⟩) 0
      [.Float ⟨5⟩] []).2 = .null ∧
    (PyMathOps_get_value (scripted none (some (.std_exception boom))) (oneHandle ⟨7⟩) 0).2
      = .null ∧
    (PyMathOps_add (scripted none (some (.std_exception boom))) (oneHandle ⟨7⟩) 0
      [.Float ⟨5⟩]).1.err ≠ none ∧
    (PyMathOps_power (scripted none (some (.std_exception boom))) (oneHandle ⟨7⟩) 0
      [.Float ⟨5⟩] []).1.err ≠ none ∧
    (PyMathOps_get_value (scripted none (some (.std_exception boom))) (oneHandle ⟨7⟩)
      0).1.err ≠ none := by
  have h := std_exception_is_converted (scripted none (some (.std_exception boom)))
    (oneHandle ⟨7⟩) 0 [.Float ⟨5⟩] []
  have hadd := h.2.2.2.2.2.2.1 0 ⟨7⟩ ⟨5⟩ boom (by decide) (by decide) (by decide)
  have hpow := h.2.2.2.2.2.2.2.1 0 ⟨7⟩ ⟨5⟩ none boom (by decide) (by decide) (by decide)
  have hget := h.2.2.2.2.2.2.2.2 0 ⟨7⟩ boom (by decide) (by decide)
  exact ⟨by decide, by decide, by decide, by decide, by decide, by decide, hadd, hpow, hget,
    h.2.2.2.1 hadd, h.2.2.2.2.1 hpow, h.2.2.2.2.2.1 hget⟩

/-! ## Argument errors of the methods -/

/-- C3: when the required numeric argument (`x` of `add`: the first element of
the tuple; `exponent` of `power`: the first element of the tuple, or the
keyword `exponent` when the tuple is empty) has no numeric value, the entry
point returns `NULL` with a `TypeError` and changes nothing else in the world:
no call is made on the native object (trace and native heap are the same), and
the `value` getter returns after the call what it returned before. -/
theorem non_numeric_argument_rejected {σ : Type} (M : MathOperations σ) (w : World σ)
    (self : Nat) (a : PyObject) (hnum : a.isNumeric = false) :
    (∀ args, args.head? = some a →
      PyMathOps_add M w self args = ({ w with err := some ⟨.TypeError, none⟩ }, .null) ∧
      (PyMathOps_add M w self args).1.trace = w.trace ∧
      (PyMathOps_add M w self args).1.natives = w.natives ∧
      (PyMathOps_get_value M (PyMathOps_add M w self args).1 self).2
        = (PyMathOps_get_value M w self).2) ∧
    (∀ args kwargs, (args.head? <|> kwargs.lookup "exponent") = some a →
      PyMathOps_power M w self args kwargs
        = ({ w with err := some ⟨.TypeError, none⟩ }, .null) ∧
      (PyMathOps_power M w self args kwargs).1.trace = w.trace ∧
      (PyMathOps_power M w self args kwargs).1.natives = w.natives ∧
      (PyMathOps_get_value M (PyMathOps_power M w self args kwargs).1 self).2
        = (PyMathOps_get_value M w self).2) := by
  have hget : ∀ e, (PyMathOps_get_value M { w with err := e } self).2
      = (PyMathOps_get_value M w self).2 := by
    intro e
    unfold PyMathOps_get_value cpp_obj
    dsimp only
    repeat' split
    all_goals simp_all [PyErr_SetString]
  constructor
  · intro args hhead
    have hcall : PyMathOps_add M w self args
        = ({ w with err := some ⟨.TypeError, none⟩ }, .null) := by
      simp [PyMathOps_add, parseTuple_d_not_numeric args a hhead hnum]
    rw [hcall]
    exact ⟨rfl, rfl, rfl, hget _⟩
  · intro args kwargs hexp
    have hcall : PyMathOps_power M w self args kwargs
        = ({ w with err := some ⟨.TypeError, none⟩ }, .null) := by
      simp [PyMathOps_power, parseKeywords_d_p_not_numeric args kwargs a hexp hnum]
    rw [hcall]
    exact ⟨rfl, rfl, rfl, hget _⟩

/-- Witness for C3: `add("x")` and `power(exponent="x")` on a handle holding 7
(as a bit pattern). -/
theorem non_numeric_argument_rejected_witness :
    (PyObject.Unicode "x").isNumeric = false ∧
    [PyObject.Unicode "x"].head? = some (.Unicode "x") ∧
    (([] : List PyObject).head? <|> [("exponent", PyObject.Unicode "x")].lookup "exponent")
      = some (.Unicode "x") ∧
    (PyMathOps_add (scripted none none) (oneHandle ⟨7⟩) 0 [.Unicode "x"]
        = ({ oneHandle ⟨7⟩ with err := some ⟨.TypeError, none⟩ }, .null) ∧
      (PyMathOps_add (scripted none none) (oneHandle ⟨7⟩) 0 [.Unicode "x"]).1.trace
        = (oneHandle ⟨7⟩).trace ∧
      (PyMathOps_add (scripted none none) (oneHandle ⟨7⟩) 0 [.Unicode "x"]).1.natives
        = (oneHandle ⟨7⟩).natives ∧
      (PyMathOps_get_value (scripted none none)
          (PyMathOps_add (scripted none none) (oneHandle ⟨7⟩) 0 [.Unicode "x"]).1 0).2
        = (PyMathOps_get_value (scripted none none) (oneHandle ⟨7⟩) 0).2) ∧
    (PyMathOps_power (scripted none none) (oneHandle ⟨7⟩) 0 []
          [("exponent", .Unicode "x")]
        = ({ oneHandle ⟨7⟩ with err := some ⟨.TypeError, none⟩ }, .null) ∧
      (PyMathOps_power (scripted none none) (oneHandle ⟨7⟩) 0 []
          [("exponent", .Unicode "x")]).1.trace = (oneHandle ⟨7⟩).trace ∧
      (PyMathOps_power (scripted none none) (oneHandle ⟨7⟩) 0 []
          [("exponent", .Unicode "x")]).1.natives = (oneHandle ⟨7⟩).natives ∧
      (PyMathOps_get_value (scripted none none)
          (PyMathOps_power (scripted none none) (oneHandle ⟨7⟩) 0 []
            [("exponent", .Unicode "x")]).1 0).2
        = (PyMathOps_get_value (scripted none none) (oneHandle ⟨7⟩) 0).2) :=
  ⟨by decide, by decide, by decide,
    (non_numeric_argument_rejected (scripted none none) (oneHandle ⟨7⟩) 0 (.Unicode "x")
      (by decide)).1 [.Unicode "x"] (by decide),
    (non_numeric_argument_rejected (scripted none none) (oneHandle ⟨7⟩) 0 (.Unicode "x")
      (by decide)).2 [] [("exponent", .Unicode "x")] (by decide)⟩

/-! ## Calling conventions of `power` -/

theorem parse_power_exponent_only (e : Double) :
    PyArg_ParseTupleAndKeywords [.Float e] [] "d|p" ["exponent", "absolute"]
      = .ok [some (.double e), none] := by
  rfl

theorem parse_power_positional (e : Double) (b : Bool) :
    PyArg_ParseTupleAndKeywords [.Float e, .BoolObj b] [] "d|p" ["exponent", "absolute"]
      = .ok [some (.double e), some (.int (if b then 1 else 0))] := by
  rfl

theorem parse_power_mixed (e : Double) (b : Bool) :
    PyArg_ParseTupleAndKeywords [.Float e] [("absolute", .BoolObj b)] "d|p"
      ["exponent", "absolute"] = .ok [some (.double e), some (.int (if b then 1 else 0))] := by
  rfl

theorem parse_power_keywords (e : Double) (b : Bool) :
    PyArg_ParseTupleAndKeywords [] [("exponent", .Float e), ("absolute", .BoolObj b)] "d|p"
      ["exponent", "absolute"] = .ok [some (.double e), some (.int (if b then 1 else 0))] := by
  rfl

theorem parse_power_keywords_swapped (e : Double) (b : Bool) :
    PyArg_ParseTupleAndKeywords [] [("absolute", .BoolObj b), ("exponent", .Float e)] "d|p"
      ["exponent", "absolute"] = .ok [some (.double e), some (.int (if b then 1 else 0))] := by
  rfl

theorem parse_power_exponent_keyword (e : Double) :
    PyArg_ParseTupleAndKeywords [] [("exponent", .Float e)] "d|p" ["exponent", "absolute"]
      = .ok [some (.double e), none] := by
  rfl

theorem absolute_flag (b : Bool) :
    (readInt 0 (some (.int (if b then 1 else 0))) != 0) = b := by
  cases b <;> rfl

/-- What `PyMathOps_power` does once its arguments are parsed to `exponent`
and the output slot of `absolute`. -/
theorem power_of_parse {σ : Type} (M : MathOperations σ) (w : World σ) (self : Nat)
    (args : List PyObject) (kwargs : List (String × PyObject)) (e : Double)
    (slot : Option CVal) (p : Nat) (st : σ)
    (hparse : PyArg_ParseTupleAndKeywords args kwargs "d|p" ["exponent", "absolute"]
      = .ok [some (.double e), slot])
    (hobj : cpp_obj w self = some (p, st)) :
    PyMathOps_power M w self args kwargs =
      match (M.power st e (readInt 0 slot != 0)).2 with
      | .ret result =>
        ({ w with natives := store p (M.power st e (readInt 0 slot != 0)).1 w.natives,
                  trace := w.trace ++ [.power p e (readInt 0 slot != 0)] },
          .value (.Float result))
      | .throw (.std_exception what) =>
        ({ w with natives := store p (M.power st e (readInt 0 slot != 0)).1 w.natives,
                  trace := w.trace ++ [.power p e (readInt 0 slot != 0)],
                  err := some ⟨.RuntimeError, PyUnicode_FromString what⟩ }, .null)
      | .throw .other =>
        ({ w with natives := store p (M.power st e (readInt 0 slot != 0)).1 w.natives,
                  trace := w.trace ++ [.power p e (readInt 0 slot != 0)] },
          .escaped .other) := by
  simp only [PyMathOps_power, hparse, hobj]
  split <;> simp_all [PyFloat_FromDouble, PyErr_SetString]

/-- C7: on a constructed handle, `power(e)` makes the native call
`power(e, false)` and `power(e, b)` makes the native call `power(e, b)`; the
whole outcome (world and result) of `power(e, absolute=b)`,
`power(exponent=e, absolute=b)` and `power(absolute=b, exponent=e)` is the
outcome of `power(e, b)`, and that of `power(exponent=e)` is the outcome of
`power(e)`. -/
theorem power_calling_conventions {σ : Type} (M : MathOperations σ) (w : World σ)
    (self p : Nat) (st : σ) (e : Double) (b : Bool) (hobj : cpp_obj w self = some (p, st)) :
    (PyMathOps_power M w self [.Float e] []).1.trace = w.trace ++ [.power p e false] ∧
    (PyMathOps_power M w self [.Float e] []).1.natives
      = store p (M.power st e false).1 w.natives ∧
    (PyMathOps_power M w self [.Float e, .BoolObj b] []).1.trace
      = w.trace ++ [.power p e b] ∧
    (PyMathOps_power M w self [.Float e, .BoolObj b] []).1.natives
      = store p (M.power st e b).1 w.natives ∧
    PyMathOps_power M w self [.Float e] [("absolute", .BoolObj b)]
      = PyMathOps_power M w self [.Float e, .BoolObj b] [] ∧
    PyMathOps_power M w self [] [("exponent", .Float e), ("absolute", .BoolObj b)]
      = PyMathOps_power M w self [.Float e, .BoolObj b] [] ∧
    PyMathOps_power M w self [] [("absolute", .BoolObj b), ("exponent", .Float e)]
      = PyMathOps_power M w self [.Float e, .BoolObj b] [] ∧
    PyMathOps_power M w self [] [("exponent", .Float e)]
      = PyMathOps_power M w self [.Float e] [] := by
  have h1 := power_of_parse M w self _ _ e _ p st (parse_power_exponent_only e) hobj
  have h2 := power_of_parse M w self _ _ e _ p st (parse_power_positional e b) hobj
  have h3 := power_of_parse M w self _ _ e _ p st (parse_power_mixed e b) hobj
  have h4 := power_of_parse M w self _ _ e _ p st (parse_power_keywords e b) hobj
  have h5 := power_of_parse M w self _ _ e _ p st (parse_power_keywords_swapped e b) hobj
  have h6 := power_of_parse M w self _ _ e _ p st (parse_power_exponent_keyword e) hobj
  rw [absolute_flag] at h2 h3 h4 h5
  have hdefault : (readInt 0 none != 0) = false := rfl
  rw [hdefault] at h1 h6
  refine ⟨?_, ?_, ?_, ?_, ?_, ?_, ?_, ?_⟩
  · rw [h1]; split <;> rfl
  · rw [h1]; split <;> rfl
  · rw [h2]; split <;> rfl
  · rw [h2]; split <;> rfl
  · rw [h3, h2]
  · rw [h4, h2]
  · rw [h5, h2]
  · rw [h6, h1]

/-- Witness for C7 on a handle holding 7 (as a bit pattern): the five calling
styles with exponent 5 and `absolute = True`. -/
theorem power_calling_conventions_witness :
    cpp_obj (oneHandle ⟨7⟩) 0 = some (0, ⟨7⟩) ∧
    (PyMathOps_power (scripted none none) (oneHandle ⟨7⟩) 0 [.Float ⟨5⟩] []).1.trace
      = (oneHandle ⟨7⟩).trace ++ [.power 0 ⟨5⟩ false] ∧
    (PyMathOps_power (scripted none none) (oneHandle ⟨7⟩) 0 [.Float ⟨5⟩, .BoolObj true]
      []).1.trace = (oneHandle ⟨7⟩).trace ++ [.power 0 ⟨5⟩ true] ∧
    PyMathOps_power (scripted none none) (oneHandle ⟨7⟩) 0 []
        [("absolute", .BoolObj true), ("exponent", .Float ⟨5⟩)]
      = PyMathOps_power (scripted none none) (oneHandle ⟨7⟩) 0 [.Float ⟨5⟩, .BoolObj true]
        [] :=
  ⟨by decide,
    (power_calling_conventions (scripted none none) (oneHandle ⟨7⟩) 0 0 ⟨7⟩ ⟨5⟩ true
      (by decide)).1,
    (power_calling_conventions (scripted none none) (oneHandle ⟨7⟩) 0 0 ⟨7⟩ ⟨5⟩ true
      (by decide)).2.2.1,
    (power_calling_conventions (scripted none none) (oneHandle ⟨7⟩) 0 0 ⟨7⟩ ⟨5⟩ true
      (by decide)).2.2.2.2.2.2.1⟩

/-! ## The constructor -/

theorem PyFloat_AsDouble_error_kind (a : PyObject) (e : PyErr)
    (h : PyFloat_AsDouble a = .error e) : e.exc = .TypeError ∨ e.exc = .OverflowError := by
  cases a <;> simp [PyFloat_AsDouble] at h
  all_goals first
    | (subst h; simp)
    | (split at h <;> simp at h; subst h; simp)

/-- What the parser of the constructor yields: at most one slot is written,
and a failure is a `TypeError` or an `OverflowError`. -/
theorem parse_new_cases (args : List PyObject) (kwargs : List (String × PyObject)) :
    (∃ e, PyArg_ParseTupleAndKeywords args kwargs "|d" ["initial_value"] = .error e ∧
      (e.exc = .TypeError ∨ e.exc = .OverflowError)) ∨
    PyArg_ParseTupleAndKeywords args kwargs "|d" ["initial_value"] = .ok [none] ∨
    (∃ a v, (args.head? <|> kwargs.lookup "initial_value") = some a ∧
      PyFloat_AsDouble a = .ok v ∧
      PyArg_ParseTupleAndKeywords args kwargs "|d" ["initial_value"]
        = .ok [some (.double v)]) := by
  unfold PyArg_ParseTupleAndKeywords
  split
  · left; exact ⟨_, rfl, Or.inl rfl⟩
  · rw [formatUnits_opt_d, formatMin_opt_d]
    rename_i hlen
    simp only [List.length_cons, List.length_nil, Nat.zero_add, Nat.not_lt] at hlen
    match args, kwargs, hlen with
    | [], [], _ => right; left; rfl
    | [b], [], _ =>
      cases hb : PyFloat_AsDouble b with
      | error e =>
        left
        refine ⟨e, ?_, PyFloat_AsDouble_error_kind b e hb⟩
        simp [parseKeywords, convertsimple_d, hb]
      | ok v =>
        right; right
        refine ⟨b, v, rfl, hb, ?_⟩
        simp [parseKeywords, convertsimple_d, hb]
    | [], [(k, b)], _ =>
      by_cases hk : "initial_value" = k
      · subst hk
        cases hb : PyFloat_AsDouble b with
        | error e =>
          left
          refine ⟨e, ?_, PyFloat_AsDouble_error_kind b e hb⟩
          simp [parseKeywords, convertsimple_d, hb, List.lookup]
        | ok v =>
          right; right
          refine ⟨b, v, by simp [List.lookup], hb, ?_⟩
          simp [parseKeywords, convertsimple_d, hb, List.lookup]
      · left
        refine ⟨⟨.TypeError, none⟩, ?_, Or.inl rfl⟩
        have hbeq : ("initial_value" == k) = false := by simpa using hk
        simp [parseKeywords, List.lookup, hbeq]
    | _ :: _ :: _, _, h => simp at h; omega
    | _ :: _, _ :: _, h => simp at h; omega
    | _, _ :: _ :: _, h => simp at h; omega

theorem erase_cons_self {β : Type} (a : Nat) (v : β) (l : List (Nat × β)) :
    erase a ((a, v) :: l) = erase a l := by
  simp [erase]

theorem find_erase_self {β : Type} (a : Nat) (l : List (Nat × β)) :
    find a (erase a l) = none := by
  induction l with
  | nil => rfl
  | cons kv rest ih =>
    obtain ⟨k, v⟩ := kv
    by_cases h : k = a
    · simp [erase, h, ih]
    · simp [erase, find, h, ih]

/-- The deallocator on a handle whose `cpp_obj` is null only frees the handle. -/
theorem dealloc_null {σ : Type} (w : World σ) (self cnt : Nat)
    (h : find self w.objects = some ⟨cnt, none⟩) :
    PyMathOps_dealloc w self
      = some { w with objects := erase self w.objects, memory := w.memory + 1 } := by
  simp [PyMathOps_dealloc, h]

theorem decref_last_null {σ : Type} (w : World σ) (self : Nat)
    (h : find self w.objects = some ⟨1, none⟩) :
    Py_DECREF w self
      = some { w with objects := erase self w.objects, memory := w.memory + 1 } := by
  simp [Py_DECREF, h, dealloc_null w self 1 h]

/-- The parser of the constructor writes exactly one slot. -/
theorem parse_new_ok (args : List PyObject) (kwargs : List (String × PyObject))
    (vals : List (Option CVal))
    (h : PyArg_ParseTupleAndKeywords args kwargs "|d" ["initial_value"] = .ok vals) :
    ∃ slot, vals = [slot] := by
  rcases parse_new_cases args kwargs with ⟨e, he, _⟩ | h1 | ⟨a, v, _, _, h2⟩
  · rw [he] at h; cases h
  · rw [h1] at h; cases h; exact ⟨_, rfl⟩
  · rw [h2] at h; cases h; exact ⟨_, rfl⟩

/-- The constructor when the arguments do not parse. -/
theorem new_of_parse_error {σ : Type} (M : MathOperations σ) (w : World σ)
    (args : List PyObject) (kwargs : List (String × PyObject)) (e : PyErr)
    (hmem : 0 < w.memory)
    (hparse : PyArg_ParseTupleAndKeywords args kwargs "|d" ["initial_value"] = .error e) :
    PyMathOps_new M w args kwargs =
      ({ w with objects := erase w.nextObject w.objects, nextObject := w.nextObject + 1,
                err := some e }, .null) := by
  obtain ⟨m, hm⟩ : ∃ m, w.memory = m + 1 := ⟨w.memory - 1, by omega⟩
  simp only [PyMathOps_new, tp_alloc, hm, hparse]
  rw [decref_last_null _ _ (by simp [find])]
  simp [erase]

/-- The constructor when the arguments parse and the native constructor throws
an exception derived from `std::exception`. -/
theorem new_of_ctor_std_exception {σ : Type} (M : MathOperations σ) (w : World σ)
    (args : List PyObject) (kwargs : List (String × PyObject)) (slot : Option CVal)
    (m : List Nat) (hmem : 0 < w.memory)
    (hparse : PyArg_ParseTupleAndKeywords args kwargs "|d" ["initial_value"] = .ok [slot])
    (hctor : M.ctor (readDouble Double.zero slot) = .throw (.std_exception m)) :
    PyMathOps_new M w args kwargs =
      ({ w with objects := erase w.nextObject w.objects, nextObject := w.nextObject + 1,
                err := some ⟨.RuntimeError, PyUnicode_FromString m⟩,
                trace := w.trace ++ [.new w.nextObject (readDouble Double.zero slot) none] },
        .null) := by
  obtain ⟨k, hk⟩ : ∃ k, w.memory = k + 1 := ⟨w.memory - 1, by omega⟩
  simp only [PyMathOps_new, tp_alloc, hk, hparse, hctor]
  rw [decref_last_null _ _ (by simp [find])]
  simp [erase, PyErr_SetString]

/-- The constructor when the arguments parse and the native constructor throws
a value that is not derived from `std::exception`. -/
theorem new_of_ctor_other {σ : Type} (M : MathOperations σ) (w : World σ)
    (args : List PyObject) (kwargs : List (String × PyObject)) (slot : Option CVal)
    (hmem : 0 < w.memory)
    (hparse : PyArg_ParseTupleAndKeywords args kwargs "|d" ["initial_value"] = .ok [slot])
    (hctor : M.ctor (readDouble Double.zero slot) = .throw .other) :
    PyMathOps_new M w args kwargs =
      ({ w with objects := (w.nextObject, ⟨1, none⟩) :: w.objects,
                nextObject := w.nextObject + 1,
                memory := w.memory - 1,
                trace := w.trace ++ [.new w.nextObject (readDouble Double.zero slot) none] },
        .escaped .other) := by
  obtain ⟨k, hk⟩ : ∃ k, w.memory = k + 1 := ⟨w.memory - 1, by omega⟩
  simp [PyMathOps_new, tp_alloc, hk, hparse, hctor]

/-- The constructor when the arguments parse and the native constructor
returns. -/
theorem new_of_ctor_ret {σ : Type} (M : MathOperations σ) (w : World σ)
    (args : List PyObject) (kwargs : List (String × PyObject)) (slot : Option CVal)
    (obj : σ) (hmem : 0 < w.memory)
    (hparse : PyArg_ParseTupleAndKeywords args kwargs "|d" ["initial_value"] = .ok [slot])
    (hctor : M.ctor (readDouble Double.zero slot) = .ret obj) :
    PyMathOps_new M w args kwargs =
      ({ w with natives := (w.nextNative, obj) :: w.natives,
                nextNative := w.nextNative + 1,
                objects := (w.nextObject, ⟨1, some w.nextNative⟩) ::
                  store w.nextObject ⟨1, some w.nextNative⟩ w.objects,
                nextObject := w.nextObject + 1,
                memory := w.memory - 1,
                trace := w.trace ++
                  [.new w.nextObject (readDouble Double.zero slot) (some w.nextNative)] },
        .value (.MathOps w.nextObject)) := by
  obtain ⟨k, hk⟩ : ∃ k, w.memory = k + 1 := ⟨w.memory - 1, by omega⟩
  simp [PyMathOps_new, tp_alloc, hk, hparse, hctor, store]

/-- The constructor when the runtime has no memory for the handle. -/
theorem new_of_no_memory {σ : Type} (M : MathOperations σ) (w : World σ)
    (args : List PyObject) (kwargs : List (String × PyObject)) (hmem : w.memory = 0) :
    PyMathOps_new M w args kwargs = ({ w with err := some ⟨.MemoryError, none⟩ }, .null) := by
  simp [PyMathOps_new, tp_alloc, hmem]

/-- A constructor call that returns a handle had memory for it, parsed its
arguments and got an object from the native constructor. -/
theorem new_value_inv {σ : Type} (M : MathOperations σ) (w w1 : World σ)
    (args : List PyObject) (kwargs : List (String × PyObject)) (h : PyObject)
    (hnew : PyMathOps_new M w args kwargs = (w1, .value h)) :
    0 < w.memory ∧ ∃ slot obj,
      PyArg_ParseTupleAndKeywords args kwargs "|d" ["initial_value"] = .ok [slot] ∧
      M.ctor (readDouble Double.zero slot) = .ret obj := by
  have hmem : 0 < w.memory := by
    rcases Nat.eq_zero_or_pos w.memory with h0 | hpos
    · rw [new_of_no_memory M w args kwargs h0] at hnew
      simp at hnew
    · exact hpos
  refine ⟨hmem, ?_⟩
  cases hparse : PyArg_ParseTupleAndKeywords args kwargs "|d" ["initial_value"] with
  | error e =>
    rw [new_of_parse_error M w args kwargs e hmem hparse] at hnew
    simp at hnew
  | ok vals =>
    obtain ⟨slot, rfl⟩ := parse_new_ok args kwargs vals hparse
    cases hctor : M.ctor (readDouble Double.zero slot) with
    | ret obj => exact ⟨slot, obj, rfl, hctor⟩
    | throw t =>
      cases t with
      | std_exception m =>
        rw [new_of_ctor_std_exception M w args kwargs slot m hmem hparse hctor] at hnew
        simp at hnew
      | other =>
        rw [new_of_ctor_other M w args kwargs slot hmem hparse hctor] at hnew
        simp at hnew

/-- A successful construction whose arguments parse to `slot`. -/
theorem constructedWith_of_parse {σ : Type} (M : MathOperations σ) (w w1 : World σ)
    (args : List PyObject) (kwargs : List (String × PyObject)) (h : PyObject)
    (slot : Option CVal)
    (hparse : PyArg_ParseTupleAndKeywords args kwargs "|d" ["initial_value"] = .ok [slot])
    (hnew : PyMathOps_new M w args kwargs = (w1, .value h)) :
    ConstructedWith M w w1 h (readDouble Double.zero slot) := by
  obtain ⟨hmem, slot1, obj, hparse1, hctor⟩ := new_value_inv M w w1 args kwargs h hnew
  rw [hparse] at hparse1
  cases hparse1
  rw [new_of_ctor_ret M w args kwargs slot obj hmem hparse hctor] at hnew
  simp only [Prod.mk.injEq, Ret.value.injEq] at hnew
  obtain ⟨hw, hh⟩ := hnew
  subst hw
  have hobj : cpp_obj
      ({ w with natives := (w.nextNative, obj) :: w.natives,
                nextNative := w.nextNative + 1,
                objects := (w.nextObject, ⟨1, some w.nextNative⟩) ::
                  store w.nextObject ⟨1, some w.nextNative⟩ w.objects,
                nextObject := w.nextObject + 1,
                memory := w.memory - 1,
                trace := w.trace ++
                  [.new w.nextObject (readDouble Double.zero slot) (some w.nextNative)] } :
        World σ) w.nextObject
      = some (w.nextNative, obj) := by
    simp [cpp_obj, find]
  refine ⟨obj, hctor, hh.symm, hobj, rfl, ?_⟩
  intro hget
  simp [PyMathOps_get_value, hobj, hget, PyFloat_FromDouble]

/-- C4: a construction that returns a handle and got no argument called the
native constructor with `0.0`; one that got `initial_value` as an object whose
double value is `v`, as the positional argument or under the keyword
`initial_value`, called it with exactly `v`.  The handle owns the object the
constructor returned, and the `value` property read on the new handle is
`0.0`, respectively `v`, when the native `get_value` returns the value the
object was constructed with. -/
theorem construction_initial_value {σ : Type} (M : MathOperations σ) (w w1 : World σ)
    (h : PyObject) :
    (PyMathOps_new M w [] [] = (w1, .value h) → ConstructedWith M w w1 h Double.zero) ∧
    (∀ a v, PyFloat_AsDouble a = .ok v → PyMathOps_new M w [a] [] = (w1, .value h) →
      ConstructedWith M w w1 h v) ∧
    (∀ a v, PyFloat_AsDouble a = .ok v →
      PyMathOps_new M w [] [("initial_value", a)] = (w1, .value h) →
      ConstructedWith M w w1 h v) := by
  refine ⟨?_, ?_, ?_⟩
  · intro hnew
    exact constructedWith_of_parse M w w1 [] [] h none rfl hnew
  · intro a v ha hnew
    have hparse : PyArg_ParseTupleAndKeywords [a] [] "|d" ["initial_value"]
        = .ok [some (.double v)] := by
      simp [PyArg_ParseTupleAndKeywords, formatUnits_opt_d, formatMin_opt_d, parseKeywords,
        convertsimple_d, ha]
    exact constructedWith_of_parse M w w1 [a] [] h _ hparse hnew
  · intro a v ha hnew
    have hparse : PyArg_ParseTupleAndKeywords [] [("initial_value", a)] "|d"
        ["initial_value"] = .ok [some (.double v)] := by
      simp [PyArg_ParseTupleAndKeywords, formatUnits_opt_d, formatMin_opt_d, parseKeywords,
        convertsimple_d, ha, List.lookup]
    exact constructedWith_of_parse M w w1 [] [("initial_value", a)] h _ hparse hnew

/-- Witness for C4: construction without argument, with the positional
argument 7 and with the keyword argument 7 (as bit patterns), on a native
class that returns the stored value. -/
theorem construction_initial_value_witness :
    PyMathOps_new (scripted none none) (World.init Double 1) [] []
      = (oneHandle Double.zero, .value (.MathOps 0)) ∧
    PyFloat_AsDouble (.Float ⟨7⟩) = .ok ⟨7⟩ ∧
    PyMathOps_new (scripted none none) (World.init Double 1) [.Float ⟨7⟩] []
      = (oneHandle ⟨7⟩, .value (.MathOps 0)) ∧
    PyMathOps_new (scripted none none) (World.init Double 1) []
        [("initial_value", .Float ⟨7⟩)] = (oneHandle ⟨7⟩, .value (.MathOps 0)) ∧
    ConstructedWith (scripted none none) (World.init Double 1) (oneHandle Double.zero)
      (.MathOps 0) Double.zero ∧
    ConstructedWith (scripted none none) (World.init Double 1) (oneHandle ⟨7⟩)
      (.MathOps 0) ⟨7⟩ ∧
    ((scripted none none).get_value ⟨7⟩).2 = .ret ⟨7⟩ ∧
    (PyMathOps_get_value (scripted none none) (oneHandle ⟨7⟩) 0).2 = .value (.Float ⟨7⟩) := by
  have h0 := (construction_initial_value (scripted none none) (World.init Double 1)
    (oneHandle Double.zero) (.MathOps 0)).1 (by decide)
  have h7 := (construction_initial_value (scripted none none) (World.init Double 1)
    (oneHandle ⟨7⟩) (.MathOps 0)).2.1 (.Float ⟨7⟩) ⟨7⟩ (by decide) (by decide)
  have h7k := (construction_initial_value (scripted none none) (World.init Double 1)
    (oneHandle ⟨7⟩) (.MathOps 0)).2.2 (.Float ⟨7⟩) ⟨7⟩ (by decide) (by decide)
  refine ⟨by decide, by decide, by decide, by decide, h0, h7k, by decide, ?_⟩
  obtain ⟨obj, hctor, _, _, _, hget⟩ := h7
  have hobj : obj = ⟨7⟩ := by
    simp only [scripted, Native.ret.injEq] at hctor
    exact hctor.symm
  subst hobj
  exact hget (by decide)

/-- C5: when the handle could be allocated and the arguments do not parse, the
constructor returns `NULL` with the parser's error in the error indicator,
which is a `TypeError` or an `OverflowError`.  Nothing else changes but the
address counter: the trace is the same, so no native object was constructed
and none was deleted, and the native heap is the same.  The allocated handle
went through `Py_DECREF` with a null `cpp_obj` and is not live afterwards. -/
theorem parse_failure_aborts_construction {σ : Type} (M : MathOperations σ) (w : World σ)
    (args : List PyObject) (kwargs : List (String × PyObject)) (e : PyErr)
    (hmem : 0 < w.memory)
    (hparse : PyArg_ParseTupleAndKeywords args kwargs "|d" ["initial_value"] = .error e) :
    PyMathOps_new M w args kwargs =
      ({ w with objects := erase w.nextObject w.objects, nextObject := w.nextObject + 1,
                err := some e }, .null) ∧
    (e.exc = .TypeError ∨ e.exc = .OverflowError) ∧
    (PyMathOps_new M w args kwargs).1.trace = w.trace ∧
    (PyMathOps_new M w args kwargs).1.natives = w.natives ∧
    (tp_alloc w).2 = some w.nextObject ∧
    find w.nextObject (tp_alloc w).1.objects = some ⟨1, none⟩ ∧
    Py_DECREF { (tp_alloc w).1 with err := some e } w.nextObject
      = some (PyMathOps_new M w args kwargs).1 ∧
    find w.nextObject (PyMathOps_new M w args kwargs).1.objects = none := by
  have hnew := new_of_parse_error M w args kwargs e hmem hparse
  have hkind : e.exc = .TypeError ∨ e.exc = .OverflowError := by
    rcases parse_new_cases args kwargs with ⟨e1, he1, hk⟩ | h1 | ⟨a, v, _, _, h2⟩
    · rw [hparse] at he1
      cases he1
      exact hk
    · rw [hparse] at h1; cases h1
    · rw [hparse] at h2; cases h2
  obtain ⟨k, hk⟩ : ∃ k, w.memory = k + 1 := ⟨w.memory - 1, by omega⟩
  refine ⟨hnew, hkind, by rw [hnew], by rw [hnew], by simp [tp_alloc, hk],
    by simp [tp_alloc, hk, find], ?_, ?_⟩
  · rw [hnew, decref_last_null _ _ (by simp [tp_alloc, hk, find])]
    simp [tp_alloc, hk, erase]
  · rw [hnew]
    exact find_erase_self _ _

/-- The three kinds of arguments the constructor rejects with a `TypeError`:
an `initial_value` without numeric value (positional or by keyword), more
than one argument, and a keyword other than `initial_value`. -/
theorem new_arguments_rejected (args : List PyObject) (kwargs : List (String × PyObject)) :
    (∀ a, (args.head? <|> kwargs.lookup "initial_value") = some a → a.isNumeric = false →
      PyArg_ParseTupleAndKeywords args kwargs "|d" ["initial_value"]
        = .error ⟨.TypeError, none⟩) ∧
    (1 < args.length + kwargs.length →
      PyArg_ParseTupleAndKeywords args kwargs "|d" ["initial_value"]
        = .error ⟨.TypeError, none⟩) ∧
    (∀ k v, k ≠ "initial_value" →
      PyArg_ParseTupleAndKeywords [] [(k, v)] "|d" ["initial_value"]
        = .error ⟨.TypeError, none⟩) := by
  refine ⟨?_, ?_, ?_⟩
  · intro a hhead hnum
    unfold PyArg_ParseTupleAndKeywords
    split
    · rfl
    · rw [formatUnits_opt_d, formatMin_opt_d]
      match args, hhead with
      | b :: rest, hb =>
        simp only [List.head?_cons, Option.some_orElse, Option.some.injEq] at hb
        subst hb
        simp [parseKeywords, convertsimple_d, PyFloat_AsDouble_of_not_numeric _ hnum]
      | [], hb =>
        simp only [List.head?_nil, Option.none_orElse] at hb
        have hpos : 0 < kwargs.length := by
          cases kwargs with
          | nil => simp at hb
          | cons _ _ => simp
        simp [parseKeywords, hpos, hb, convertsimple_d,
          PyFloat_AsDouble_of_not_numeric _ hnum]
  · intro hlen
    simp [PyArg_ParseTupleAndKeywords, hlen]
  · intro k v hk
    have hbeq : ("initial_value" == k) = false := by
      simpa using fun h => hk h.symm
    simp [PyArg_ParseTupleAndKeywords, formatUnits_opt_d, formatMin_opt_d, parseKeywords,
      List.lookup, hbeq]

/-- Witness for C5: `MathOperations("x")`, `MathOperations(1, 2)` and
`MathOperations(start=1)` in a fresh world with room for one handle. -/
theorem parse_failure_aborts_construction_witness :
    0 < (World.init Double 1).memory ∧
    PyArg_ParseTupleAndKeywords [.Unicode "x"] [] "|d" ["initial_value"]
      = .error ⟨.TypeError, none⟩ ∧
    PyArg_ParseTupleAndKeywords [.Long 1, .Long 2] [] "|d" ["initial_value"]
      = .error ⟨.TypeError, none⟩ ∧
    PyArg_ParseTupleAndKeywords [] [("start", .Long 1)] "|d" ["initial_value"]
      = .error ⟨.TypeError, none⟩ ∧
    PyMathOps_new (scripted none none) (World.init Double 1) [.Unicode "x"] []
      = ({ World.init Double 1 with nextObject := 1, err := some ⟨.TypeError, none⟩ },
          .null) ∧
    PyMathOps_new (scripted none none) (World.init Double 1) [.Long 1, .Long 2] []
      = ({ World.init Double 1 with nextObject := 1, err := some ⟨.TypeError, none⟩ },
          .null) ∧
    PyMathOps_new (scripted none none) (World.init Double 1) [] [("start", .Long 1)]
      = ({ World.init Double 1 with nextObject := 1, err := some ⟨.TypeError, none⟩ },
          .null) :=
  ⟨by decide, by decide, by decide, by decide,
    (parse_failure_aborts_construction (scripted none none) (World.init Double 1)
      [.Unicode "x"] [] ⟨.TypeError, none⟩ (by decide) (by decide)).1,
    (parse_failure_aborts_construction (scripted none none) (World.init Double 1)
      [.Long 1, .Long 2] [] ⟨.TypeError, none⟩ (by decide) (by decide)).1,
    (parse_failure_aborts_construction (scripted none none) (World.init Double 1)
      [] [("start", .Long 1)] ⟨.TypeError, none⟩ (by decide) (by decide)).1⟩

theorem mem_of_find {β : Type} (a : Nat) (v : β) (l : List (Nat × β))
    (h : find a l = some v) : (a, v) ∈ l := by
  induction l with
  | nil => simp [find] at h
  | cons kv rest ih =>
    obtain ⟨k, u⟩ := kv
    by_cases hk : k = a
    · simp [find, hk] at h
      simp [hk, h]
    · simp [find, hk] at h
      exact List.mem_cons_of_mem _ (ih h)

theorem mem_keys_of_find {β : Type} (a : Nat) (v : β) (l : List (Nat × β))
    (h : find a l = some v) : a ∈ l.map Prod.fst :=
  List.mem_map.mpr ⟨(a, v), mem_of_find a v l h, rfl⟩

theorem find_of_mem_keys {β : Type} (a : Nat) (l : List (Nat × β))
    (h : a ∈ l.map Prod.fst) : ∃ v, find a l = some v := by
  cases hf : find a l with
  | some v => exact ⟨v, rfl⟩
  | none =>
    exfalso
    induction l with
    | nil => simp at h
    | cons kv rest ih =>
      obtain ⟨k, u⟩ := kv
      by_cases hk : k = a
      · simp [find, hk] at hf
      · simp only [find, hk, if_false] at hf
        simp only [List.map_cons, List.mem_cons] at h
        rcases h with h | h
        · exact hk h.symm
        · exact ih h hf

theorem erase_of_not_mem {β : Type} (a : Nat) (l : List (Nat × β))
    (h : a ∉ l.map Prod.fst) : erase a l = l := by
  induction l with
  | nil => rfl
  | cons kv rest ih =>
    obtain ⟨k, v⟩ := kv
    simp only [List.map_cons, List.mem_cons, not_or] at h
    simp [erase, Ne.symm h.1, ih h.2]

theorem store_of_not_mem {β : Type} (a : Nat) (v : β) (l : List (Nat × β))
    (h : a ∉ l.map Prod.fst) : store a v l = l := by
  induction l with
  | nil => rfl
  | cons kv rest ih =>
    obtain ⟨k, u⟩ := kv
    simp only [List.map_cons, List.mem_cons, not_or] at h
    simp [store, Ne.symm h.1, ih h.2]

theorem keys_store {β : Type} (a : Nat) (v : β) (l : List (Nat × β)) :
    (store a v l).map Prod.fst = l.map Prod.fst := by
  induction l with
  | nil => rfl
  | cons kv rest ih =>
    obtain ⟨k, u⟩ := kv
    by_cases hk : k = a <;> simp [store, hk, ih]

theorem keys_erase {β : Type} (a : Nat) (l : List (Nat × β)) :
    (erase a l).map Prod.fst = (l.map Prod.fst).filter (fun k => k ≠ a) := by
  induction l with
  | nil => rfl
  | cons kv rest ih =>
    obtain ⟨k, u⟩ := kv
    by_cases hk : k = a <;> simp [erase, hk, ih]

theorem find_erase_ne {β : Type} (a b : Nat) (l : List (Nat × β)) (h : a ≠ b) :
    find b (erase a l) = find b l := by
  induction l with
  | nil => rfl
  | cons kv rest ih =>
    obtain ⟨k, u⟩ := kv
    by_cases hk : k = a
    · subst hk
      simp [erase, find, h, ih]
    · by_cases hb : k = b
      · subst hb
        simp [erase, find, hk]
      · simp [erase, find, hk, hb, ih]

/-! ## Ownership pairs -/

theorem created_append (s t : List Event) : created (s ++ t) = created s ++ created t := by
  induction s with
  | nil => rfl
  | cons e rest ih =>
    cases e with
    | new self v r => cases r <;> simp [created, ih]
    | _ => simp [created, ih]

theorem deleted_append (s t : List Event) : deleted (s ++ t) = deleted s ++ deleted t := by
  induction s with
  | nil => rfl
  | cons e rest ih => cases e <;> simp [deleted, ih]

theorem mem_owned_of_mem (a c p : Nat) (l : List (Nat × PyMathOps))
    (h : (a, (⟨c, some p⟩ : PyMathOps)) ∈ l) : (a, p) ∈ owned l := by
  induction l with
  | nil => simp at h
  | cons kv rest ih =>
    obtain ⟨k, ⟨cnt, ptr⟩⟩ := kv
    simp only [List.mem_cons, Prod.mk.injEq, PyMathOps.mk.injEq] at h
    rcases h with ⟨rfl, rfl, rfl⟩ | h
    · simp [owned]
    · cases ptr with
      | none => simpa [owned] using ih h
      | some q => simp [owned, ih h]

/-- Freeing a live handle takes its ownership pair, if it has one, out of the
list of ownership pairs. -/
theorem owned_erase (a : Nat) (o : PyMathOps) (l : List (Nat × PyMathOps))
    (hnodup : (l.map Prod.fst).Nodup) (hfind : find a l = some o) :
    (owned l).Perm ((match o.cpp_obj with
      | some p => [(a, p)]
      | none => []) ++ owned (erase a l)) := by
  induction l with
  | nil => simp [find] at hfind
  | cons kv rest ih =>
    obtain ⟨k, ⟨cnt, ptr⟩⟩ := kv
    simp only [List.map_cons, List.nodup_cons] at hnodup
    by_cases hk : k = a
    · subst hk
      simp only [find, if_true, Option.some.injEq] at hfind
      subst hfind
      rw [erase_cons_self, erase_of_not_mem _ _ hnodup.1]
      cases ptr <;> simp [owned]
    · simp only [find, hk, if_false] at hfind
      have ih1 := ih hnodup.2 hfind
      cases ptr with
      | none => simpa [owned, erase, hk] using ih1
      | some q =>
        simp only [owned, erase, hk, if_false]
        exact (List.Perm.cons _ ih1).trans List.perm_middle.symm

/-! ## Consistency is kept by every entry point -/

theorem consistent_init (σ : Type) (memory : Nat) : Consistent (World.init σ memory) :=
  { objects_fresh := by simp [World.init]
    objects_nodup := by simp [World.init]
    natives_owned := by simp [World.init, owned]
    created_split := by simp [World.init, owned, created, deleted]
    created_fresh := by simp [World.init, created]
    created_nodup := by simp [World.init, created] }

theorem Consistent.owned_nodup {σ : Type} {w : World σ} (hw : Consistent w) :
    ((owned w.objects).map Prod.snd).Nodup := by
  have h := (hw.created_split.map Prod.snd).nodup_iff.mp hw.created_nodup
  rw [List.map_append] at h
  exact (List.nodup_append.mp h).2.1

/-- Consistency only depends on the handle heap, the addresses in the native
heap, the two counters and the ownership pairs in the trace. -/
theorem Consistent.of_same {σ : Type} {w w1 : World σ} (hw : Consistent w)
    (hobjects : w1.objects = w.objects) (hnextObject : w1.nextObject = w.nextObject)
    (hnatives : w1.natives.map Prod.fst = w.natives.map Prod.fst)
    (hnextNative : w1.nextNative = w.nextNative)
    (hcreated : created w1.trace = created w.trace)
    (hdeleted : deleted w1.trace = deleted w.trace) : Consistent w1 :=
  { objects_fresh := by rw [hobjects, hnextObject]; exact hw.objects_fresh
    objects_nodup := by rw [hobjects]; exact hw.objects_nodup
    natives_owned := by rw [hobjects, hnatives]; exact hw.natives_owned
    created_split := by rw [hobjects, hcreated, hdeleted]; exact hw.created_split
    created_fresh := by rw [hcreated, hnextNative]; exact hw.created_fresh
    created_nodup := by rw [hcreated]; exact hw.created_nodup }

theorem untouched_add {σ : Type} (M : MathOperations σ) (w : World σ) (self : Nat)
    (args : List PyObject) : Untouched w (PyMathOps_add M w self args).1 := by
  unfold PyMathOps_add Untouched
  split
  · simp
  · split
    · simp
    · dsimp only
      split
      all_goals simp [PyErr_SetString, keys_store, created_append, deleted_append, created,
        deleted]
  · simp

theorem untouched_power {σ : Type} (M : MathOperations σ) (w : World σ) (self : Nat)
    (args : List PyObject) (kwargs : List (String × PyObject)) :
    Untouched w (PyMathOps_power M w self args kwargs).1 := by
  unfold PyMathOps_power Untouched
  split
  · simp
  · split
    · simp
    · dsimp only
      split
      all_goals simp [PyErr_SetString, keys_store, created_append, deleted_append, created,
        deleted]
  · simp

theorem untouched_get_value {σ : Type} (M : MathOperations σ) (w : World σ) (self : Nat) :
    Untouched w (PyMathOps_get_value M w self).1 := by
  unfold PyMathOps_get_value Untouched
  split
  · simp
  · dsimp only
    split
    all_goals simp [PyErr_SetString, keys_store, created_append, deleted_append, created,
      deleted]

theorem Consistent.of_untouched {σ : Type} {w w1 : World σ} (hw : Consistent w)
    (h : Untouched w w1) : Consistent w1 :=
  hw.of_same h.1 h.2.1 h.2.2.1 h.2.2.2.1 h.2.2.2.2.1 h.2.2.2.2.2

/-- The deallocator on a handle whose `cpp_obj` points to a live native
object. -/
theorem dealloc_owned {σ : Type} (w : World σ) (self cnt p : Nat) (st : σ)
    (h : find self w.objects = some ⟨cnt, some p⟩) (hp : find p w.natives = some st) :
    PyMathOps_dealloc w self
      = some { w with natives := erase p w.natives, trace := w.trace ++ [.delete self p],
                      objects := erase self w.objects, memory := w.memory + 1 } := by
  simp [PyMathOps_dealloc, h, hp]

theorem consistent_dealloc {σ : Type} (w w1 : World σ) (self : Nat) (hw : Consistent w)
    (h : PyMathOps_dealloc w self = some w1) : Consistent w1 := by
  cases hfind : find self w.objects with
  | none => simp [PyMathOps_dealloc, hfind] at h
  | some o =>
    obtain ⟨cnt, ptr⟩ := o
    have hsplit := owned_erase self ⟨cnt, ptr⟩ w.objects hw.objects_nodup hfind
    have hfresh : ∀ a ∈ (erase self w.objects).map Prod.fst, a < w.nextObject := by
      intro a ha
      rw [keys_erase] at ha
      exact hw.objects_fresh a (List.mem_filter.mp ha).1
    have hnodup : ((erase self w.objects).map Prod.fst).Nodup := by
      rw [keys_erase]
      exact hw.objects_nodup.filter _
    cases ptr with
    | none =>
      rw [dealloc_null w self cnt hfind] at h
      cases h
      simp only [List.nil_append] at hsplit
      exact
        { objects_fresh := hfresh
          objects_nodup := hnodup
          natives_owned := hw.natives_owned.trans (hsplit.map Prod.snd)
          created_split := hw.created_split.trans (List.Perm.append_left _ hsplit)
          created_fresh := hw.created_fresh
          created_nodup := hw.created_nodup }
    | some p =>
      simp only [List.singleton_append] at hsplit
      have hmem : p ∈ w.natives.map Prod.fst :=
        hw.natives_owned.mem_iff.mpr
          (List.mem_map.mpr ⟨(self, p), hsplit.mem_iff.mpr (List.mem_cons_self _ _), rfl⟩)
      obtain ⟨st, hst⟩ := find_of_mem_keys p w.natives hmem
      rw [dealloc_owned w self cnt p st hfind hst] at h
      cases h
      have hperm : (w.natives.map Prod.fst).Perm
          (p :: (owned (erase self w.objects)).map Prod.snd) :=
        hw.natives_owned.trans (hsplit.map Prod.snd)
      have hnd : (p :: (owned (erase self w.objects)).map Prod.snd).Nodup :=
        (hsplit.map Prod.snd).nodup_iff.mp hw.owned_nodup
      have hnotin : p ∉ (owned (erase self w.objects)).map Prod.snd :=
        (List.nodup_cons.mp hnd).1
      refine
        { objects_fresh := hfresh
          objects_nodup := hnodup
          natives_owned := ?_
          created_split := ?_
          created_fresh := ?_
          created_nodup := ?_ }
      · show ((erase p w.natives).map Prod.fst).Perm
          ((owned (erase self w.objects)).map Prod.snd)
        rw [keys_erase]
        have hrest : (p :: (owned (erase self w.objects)).map Prod.snd).filter
            (fun k => decide (k ≠ p)) = (owned (erase self w.objects)).map Prod.snd := by
          rw [List.filter_cons_of_neg (by simp)]
          refine List.filter_eq_self.mpr (fun q hq => ?_)
          have hne : q ≠ p := fun hqp => hnotin (hqp ▸ hq)
          simpa using hne
        have hf := hperm.filter (fun k => decide (k ≠ p))
        rw [hrest] at hf
        exact hf
      · show (created (w.trace ++ [Event.delete self p])).Perm
          (deleted (w.trace ++ [Event.delete self p]) ++ owned (erase self w.objects))
        rw [created_append, deleted_append]
        simp only [created, deleted, List.append_nil, List.append_assoc,
          List.singleton_append]
        exact hw.created_split.trans (List.Perm.append_left _ hsplit)
      · show ∀ sp ∈ created (w.trace ++ [Event.delete self p]), sp.2 < w.nextNative
        rw [created_append]
        simpa [created] using hw.created_fresh
      · show ((created (w.trace ++ [Event.delete self p])).map Prod.snd).Nodup
        rw [created_append]
        simpa [created] using hw.created_nodup

theorem consistent_new {σ : Type} (M : MathOperations σ) (w : World σ)
    (args : List PyObject) (kwargs : List (String × PyObject)) (hw : Consistent w) :
    Consistent (PyMathOps_new M w args kwargs).1 := by
  have hnotin : w.nextObject ∉ w.objects.map Prod.fst :=
    fun h => Nat.lt_irrefl _ (hw.objects_fresh _ h)
  have hfresh1 : ∀ a ∈ w.objects.map Prod.fst, a < w.nextObject + 1 :=
    fun a ha => Nat.lt_succ_of_lt (hw.objects_fresh a ha)
  rcases Nat.eq_zero_or_pos w.memory with h0 | hmem
  · rw [new_of_no_memory M w args kwargs h0]
    exact hw.of_same rfl rfl rfl rfl rfl rfl
  · cases hparse : PyArg_ParseTupleAndKeywords args kwargs "|d" ["initial_value"] with
    | error e =>
      rw [new_of_parse_error M w args kwargs e hmem hparse]
      exact
        { objects_fresh := by
            show ∀ a ∈ (erase w.nextObject w.objects).map Prod.fst, a < w.nextObject + 1
            rw [erase_of_not_mem _ _ hnotin]; exact hfresh1
          objects_nodup := by
            show ((erase w.nextObject w.objects).map Prod.fst).Nodup
            rw [erase_of_not_mem _ _ hnotin]; exact hw.objects_nodup
          natives_owned := by
            show (w.natives.map Prod.fst).Perm
              ((owned (erase w.nextObject w.objects)).map Prod.snd)
            rw [erase_of_not_mem _ _ hnotin]; exact hw.natives_owned
          created_split := by
            show (created w.trace).Perm
              (deleted w.trace ++ owned (erase w.nextObject w.objects))
            rw [erase_of_not_mem _ _ hnotin]; exact hw.created_split
          created_fresh := hw.created_fresh
          created_nodup := hw.created_nodup }
    | ok vals =>
      obtain ⟨slot, rfl⟩ := parse_new_ok args kwargs vals hparse
      have hcr : created (w.trace ++ [Event.new w.nextObject (readDouble Double.zero slot)
          none]) = created w.trace := by
        rw [created_append]; simp [created]
      have hdl : ∀ r, deleted (w.trace ++ [Event.new w.nextObject
          (readDouble Double.zero slot) r]) = deleted w.trace := by
        intro r
        rw [deleted_append]; simp [deleted]
      cases hctor : M.ctor (readDouble Double.zero slot) with
      | throw t =>
        cases t with
        | std_exception m =>
          rw [new_of_ctor_std_exception M w args kwargs slot m hmem hparse hctor]
          exact
            { objects_fresh := by
                show ∀ a ∈ (erase w.nextObject w.objects).map Prod.fst, a < w.nextObject + 1
                rw [erase_of_not_mem _ _ hnotin]; exact hfresh1
              objects_nodup := by
                show ((erase w.nextObject w.objects).map Prod.fst).Nodup
                rw [erase_of_not_mem _ _ hnotin]; exact hw.objects_nodup
              natives_owned := by
                show (w.natives.map Prod.fst).Perm
                  ((owned (erase w.nextObject w.objects)).map Prod.snd)
                rw [erase_of_not_mem _ _ hnotin]; exact hw.natives_owned
              created_split := by
                show (created (w.trace ++ [Event.new w.nextObject
                    (readDouble Double.zero slot) none])).Perm
                  (deleted (w.trace ++ [Event.new w.nextObject
                    (readDouble Double.zero slot) none])
                    ++ owned (erase w.nextObject w.objects))
                rw [erase_of_not_mem _ _ hnotin, hcr, hdl]; exact hw.created_split
              created_fresh := by
                show ∀ sp ∈ created (w.trace ++ [Event.new w.nextObject
                    (readDouble Double.zero slot) none]), sp.2 < w.nextNative
                rw [hcr]; exact hw.created_fresh
              created_nodup := by
                show ((created (w.trace ++ [Event.new w.nextObject
                    (readDouble Double.zero slot) none])).map Prod.snd).Nodup
                rw [hcr]; exact hw.created_nodup }
        | other =>
          rw [new_of_ctor_other M w args kwargs slot hmem hparse hctor]
          exact
            { objects_fresh := by
                show ∀ a ∈ ((w.nextObject, (⟨1, none⟩ : PyMathOps)) :: w.objects).map
                  Prod.fst, a < w.nextObject + 1
                intro a ha
                simp only [List.map_cons, List.mem_cons] at ha
                rcases ha with rfl | ha
                · exact Nat.lt_succ_self _
                · exact hfresh1 a ha
              objects_nodup := by
                show (((w.nextObject, (⟨1, none⟩ : PyMathOps)) :: w.objects).map
                  Prod.fst).Nodup
                simp only [List.map_cons, List.nodup_cons]
                exact ⟨hnotin, hw.objects_nodup⟩
              natives_owned := by
                show (w.natives.map Prod.fst).Perm
                  ((owned ((w.nextObject, (⟨1, none⟩ : PyMathOps)) :: w.objects)).map
                    Prod.snd)
                simpa [owned] using hw.natives_owned
              created_split := by
                show (created (w.trace ++ [Event.new w.nextObject
                    (readDouble Double.zero slot) none])).Perm
                  (deleted (w.trace ++ [Event.new w.nextObject
                    (readDouble Double.zero slot) none])
                    ++ owned ((w.nextObject, (⟨1, none⟩ : PyMathOps)) :: w.objects))
                rw [hcr, hdl]
                simpa [owned] using hw.created_split
              created_fresh := by
                show ∀ sp ∈ created (w.trace ++ [Event.new w.nextObject
                    (readDouble Double.zero slot) none]), sp.2 < w.nextNative
                rw [hcr]; exact hw.created_fresh
              created_nodup := by
                show ((created (w.trace ++ [Event.new w.nextObject
                    (readDouble Double.zero slot) none])).map Prod.snd).Nodup
                rw [hcr]; exact hw.created_nodup }
      | ret obj =>
        rw [new_of_ctor_ret M w args kwargs slot obj hmem hparse hctor]
        have hcr1 : created (w.trace ++ [Event.new w.nextObject
            (readDouble Double.zero slot) (some w.nextNative)])
            = created w.trace ++ [(w.nextObject, w.nextNative)] := by
          rw [created_append]; simp [created]
        have hnew : w.nextNative ∉ (created w.trace).map Prod.snd := by
          intro h
          obtain ⟨sp, hsp, heq⟩ := List.mem_map.mp h
          have := hw.created_fresh sp hsp
          omega
        exact
          { objects_fresh := by
              show ∀ a ∈ ((w.nextObject, (⟨1, some w.nextNative⟩ : PyMathOps)) ::
                store w.nextObject ⟨1, some w.nextNative⟩ w.objects).map Prod.fst,
                a < w.nextObject + 1
              rw [store_of_not_mem _ _ _ hnotin]
              intro a ha
              simp only [List.map_cons, List.mem_cons] at ha
              rcases ha with rfl | ha
              · exact Nat.lt_succ_self _
              · exact hfresh1 a ha
            objects_nodup := by
              show (((w.nextObject, (⟨1, some w.nextNative⟩ : PyMathOps)) ::
                store w.nextObject ⟨1, some w.nextNative⟩ w.objects).map Prod.fst).Nodup
              rw [store_of_not_mem _ _ _ hnotin]
              simp only [List.map_cons, List.nodup_cons]
              exact ⟨hnotin, hw.objects_nodup⟩
            natives_owned := by
              show (((w.nextNative, obj) :: w.natives).map Prod.fst).Perm
                ((owned ((w.nextObject, (⟨1, some w.nextNative⟩ : PyMathOps)) ::
                  store w.nextObject ⟨1, some w.nextNative⟩ w.objects)).map Prod.snd)
              rw [store_of_not_mem _ _ _ hnotin]
              simpa [owned] using hw.natives_owned
            created_split := by
              show (created (w.trace ++ [Event.new w.nextObject
                  (readDouble Double.zero slot) (some w.nextNative)])).Perm
                (deleted (w.trace ++ [Event.new w.nextObject
                  (readDouble Double.zero slot) (some w.nextNative)])
                  ++ owned ((w.nextObject, (⟨1, some w.nextNative⟩ : PyMathOps)) ::
                    store w.nextObject ⟨1, some w.nextNative⟩ w.objects))
              rw [store_of_not_mem _ _ _ hnotin, hcr1, hdl]
              simp only [owned]
              exact (List.perm_append_comm.trans
                (List.Perm.cons _ hw.created_split)).trans List.perm_middle.symm
            created_fresh := by
              show ∀ sp ∈ created (w.trace ++ [Event.new w.nextObject
                  (readDouble Double.zero slot) (some w.nextNative)]),
                sp.2 < w.nextNative + 1
              rw [hcr1]
              intro sp hsp
              rcases List.mem_append.mp hsp with h | h
              · exact Nat.lt_succ_of_lt (hw.created_fresh sp h)
              · simp only [List.mem_singleton] at h
                subst h
                exact Nat.lt_succ_self _
            created_nodup := by
              show ((created (w.trace ++ [Event.new w.nextObject
                  (readDouble Double.zero slot) (some w.nextNative)])).map Prod.snd).Nodup
              rw [hcr1, List.map_append]
              refine List.nodup_append.mpr ⟨hw.created_nodup, by simp, ?_⟩
              intro a ha hb
              simp only [List.map_cons, List.map_nil, List.mem_singleton] at hb
              subst hb
              exact hnew ha }

/-- The parser of `add` writes the one double on success. -/
theorem parse_add_ok (args : List PyObject) (vals : List (Option CVal))
    (h : PyArg_ParseTuple args "d" = .ok vals) : ∃ x, vals = [some (.double x)] := by
  unfold PyArg_ParseTuple at h
  rw [formatUnits_d, formatMin_d] at h
  split at h
  · cases h
  · match args, h with
    | [], h => simp [convertArgs] at *
    | [a], h =>
      simp only [convertArgs, convertsimple_d] at h
      cases ha : PyFloat_AsDouble a with
      | error e => simp [ha] at h
      | ok x =>
        simp only [ha] at h
        cases h
        exact ⟨x, rfl⟩
    | _ :: _ :: _, h => simp at *

theorem parseKeywords_one_slot (args : List PyObject) (kwargs : List (String × PyObject))
    (min i nk n : Nat) (c : Char) (name : String) (vs : List (Option CVal))
    (h : parseKeywords args kwargs min i [c] [name] nk = .ok (vs, n)) :
    ∃ slot, vs = [slot] := by
  simp only [parseKeywords] at h
  split at h
  · split at h
    · cases h
    · simp only [Except.ok.injEq, Prod.mk.injEq] at h
      exact ⟨_, h.1.symm⟩
  · split at h
    · cases h
    · simp only [Except.ok.injEq, Prod.mk.injEq] at h
      exact ⟨_, h.1.symm⟩

/-- The parser of `power` writes the exponent on success. -/
theorem parse_power_ok (args : List PyObject) (kwargs : List (String × PyObject))
    (vals : List (Option CVal))
    (h : PyArg_ParseTupleAndKeywords args kwargs "d|p" ["exponent", "absolute"] = .ok vals) :
    ∃ e slot, vals = [some (.double e), slot] := by
  unfold PyArg_ParseTupleAndKeywords at h
  rw [formatUnits_d_p, formatMin_d_p] at h
  split at h
  · cases h
  · split at h
    · cases h
    · rename_i vs n hloop
      split at h
      · cases h
      · cases h
        rw [parseKeywords] at hloop
        split at hloop
        · rename_i arg harg
          rw [convertsimple_d] at hloop
          cases ha : PyFloat_AsDouble arg with
          | error e => simp [ha] at hloop
          | ok x =>
            simp only [ha] at hloop
            split at hloop
            · rename_i vs1 n1 hrest
              obtain ⟨slot, rfl⟩ := parseKeywords_one_slot _ _ _ _ _ _ _ _ _ hrest
              simp only [Except.ok.injEq, Prod.mk.injEq] at hloop
              exact ⟨x, slot, hloop.1.symm⟩
            · cases hloop
        · simp at hloop

/-! ## Sequences of calls -/

theorem settle_some {σ : Type} (r : World σ × Ret) (w1 : World σ) (h : settle r = some w1) :
    w1 = r.1 := by
  obtain ⟨w, ret⟩ := r
  cases ret <;> simp [settle] at h <;> exact h.symm

theorem consistent_step {σ : Type} (M : MathOperations σ) (w w1 : World σ) (c : Call)
    (hw : Consistent w) (h : step M w c = some w1) : Consistent w1 := by
  cases c with
  | construct args kwargs =>
    rw [settle_some _ _ h]
    exact consistent_new M w args kwargs hw
  | destroy self => exact consistent_dealloc w w1 self hw h
  | add self args =>
    rw [settle_some _ _ h]
    exact hw.of_untouched (untouched_add M w self args)
  | power self args kwargs =>
    rw [settle_some _ _ h]
    exact hw.of_untouched (untouched_power M w self args kwargs)
  | value self =>
    rw [settle_some _ _ h]
    exact hw.of_untouched (untouched_get_value M w self)

theorem consistent_run {σ : Type} (M : MathOperations σ) (calls : List Call) :
    ∀ (w w1 : World σ), Consistent w → run M w calls = some w1 → Consistent w1 := by
  induction calls with
  | nil =>
    intro w w1 hw h
    simp only [run, Option.some.injEq] at h
    exact h ▸ hw
  | cons c cs ih =>
    intro w w1 hw h
    simp only [run] at h
    cases hstep : step M w c with
    | none => simp [hstep] at h
    | some w2 =>
      simp only [hstep] at h
      exact ih w2 w1 (consistent_step M w w2 c hw hstep) h

theorem cpp_obj_isSome {σ : Type} (w : World σ) (self : Nat) :
    (cpp_obj w self).isSome = true ↔
      ∃ c p, find self w.objects = some ⟨c, some p⟩ ∧ p ∈ w.natives.map Prod.fst := by
  unfold cpp_obj
  constructor
  · intro h
    split at h
    · simp at h
    · rename_i o ho
      obtain ⟨c, ptr⟩ := o
      cases ptr with
      | none => simp at h
      | some p =>
        dsimp only at h
        split at h
        · simp at h
        · rename_i st hst
          exact ⟨c, p, ho, mem_keys_of_find p st _ hst⟩
  · rintro ⟨c, p, ho, hp⟩
    obtain ⟨st, hst⟩ := find_of_mem_keys p _ hp
    simp [ho, hst]

/-- A method call keeps every handle dereferenceable. -/
theorem deref_of_untouched {σ : Type} (w w1 : World σ) (self : Nat) (h : Untouched w w1)
    (hself : (cpp_obj w self).isSome = true) : (cpp_obj w1 self).isSome = true := by
  rw [cpp_obj_isSome] at hself ⊢
  obtain ⟨c, p, ho, hp⟩ := hself
  exact ⟨c, p, by rw [h.1]; exact ho, by rw [h.2.2.1]; exact hp⟩

/-- A constructor call keeps every handle dereferenceable. -/
theorem deref_new {σ : Type} (M : MathOperations σ) (w : World σ) (args : List PyObject)
    (kwargs : List (String × PyObject)) (self : Nat) (hw : Consistent w)
    (hself : (cpp_obj w self).isSome = true) :
    (cpp_obj (PyMathOps_new M w args kwargs).1 self).isSome = true := by
  rw [cpp_obj_isSome] at hself ⊢
  obtain ⟨c, p, ho, hp⟩ := hself
  have hne : w.nextObject ≠ self := by
    have := hw.objects_fresh self (mem_keys_of_find _ _ _ ho)
    omega
  have hnotin : w.nextObject ∉ w.objects.map Prod.fst :=
    fun h => Nat.lt_irrefl _ (hw.objects_fresh _ h)
  rcases Nat.eq_zero_or_pos w.memory with h0 | hmem
  · rw [new_of_no_memory M w args kwargs h0]
    exact ⟨c, p, ho, hp⟩
  · cases hparse : PyArg_ParseTupleAndKeywords args kwargs "|d" ["initial_value"] with
    | error e =>
      rw [new_of_parse_error M w args kwargs e hmem hparse]
      exact ⟨c, p, by simpa [find_erase_ne _ _ _ hne] using ho, hp⟩
    | ok vals =>
      obtain ⟨slot, rfl⟩ := parse_new_ok args kwargs vals hparse
      cases hctor : M.ctor (readDouble Double.zero slot) with
      | throw t =>
        cases t with
        | std_exception m =>
          rw [new_of_ctor_std_exception M w args kwargs slot m hmem hparse hctor]
          exact ⟨c, p, by simpa [find_erase_ne _ _ _ hne] using ho, hp⟩
        | other =>
          rw [new_of_ctor_other M w args kwargs slot hmem hparse hctor]
          exact ⟨c, p, by simpa [find, hne] using ho, hp⟩
      | ret obj =>
        rw [new_of_ctor_ret M w args kwargs slot obj hmem hparse hctor]
        refine ⟨c, p, ?_, ?_⟩
        · simpa [find, hne, store_of_not_mem _ _ _ hnotin] using ho
        · simp [hp]

/-- Destroying another handle keeps a handle dereferenceable. -/
theorem deref_dealloc {σ : Type} (w w1 : World σ) (a self : Nat) (hw : Consistent w)
    (hne : a ≠ self) (h : PyMathOps_dealloc w a = some w1)
    (hself : (cpp_obj w self).isSome = true) : (cpp_obj w1 self).isSome = true := by
  rw [cpp_obj_isSome] at hself ⊢
  obtain ⟨c, p, ho, hp⟩ := hself
  cases hfind : find a w.objects with
  | none => simp [PyMathOps_dealloc, hfind] at h
  | some o =>
    obtain ⟨cnt, ptr⟩ := o
    cases ptr with
    | none =>
      rw [dealloc_null w a cnt hfind] at h
      cases h
      exact ⟨c, p, by simpa [find_erase_ne _ _ _ hne] using ho, hp⟩
    | some q =>
      have hq : (a, q) ∈ owned w.objects :=
        mem_owned_of_mem a cnt q _ (mem_of_find _ _ _ hfind)
      have hpo : (self, p) ∈ owned w.objects :=
        mem_owned_of_mem self c p _ (mem_of_find _ _ _ ho)
      have hqp : q ≠ p := by
        intro heq
        have := List.inj_on_of_nodup_map hw.owned_nodup hq hpo heq
        exact hne (Prod.mk.inj this).1
      have hmem : q ∈ w.natives.map Prod.fst :=
        hw.natives_owned.mem_iff.mpr (List.mem_map.mpr ⟨(a, q), hq, rfl⟩)
      obtain ⟨st, hst⟩ := find_of_mem_keys q w.natives hmem
      rw [dealloc_owned w a cnt q st hfind hst] at h
      cases h
      refine ⟨c, p, by simpa [find_erase_ne _ _ _ hne] using ho, ?_⟩
      show p ∈ (erase q w.natives).map Prod.fst
      rw [keys_erase]
      exact List.mem_filter.mpr ⟨hp, by simpa using fun h => hqp h.symm⟩

theorem deref_step {σ : Type} (M : MathOperations σ) (w w1 : World σ) (c : Call)
    (self : Nat) (hw : Consistent w) (hc : c ≠ .destroy self) (h : step M w c = some w1)
    (hself : (cpp_obj w self).isSome = true) : (cpp_obj w1 self).isSome = true := by
  cases c with
  | construct args kwargs =>
    rw [settle_some _ _ h]
    exact deref_new M w args kwargs self hw hself
  | destroy a =>
    have hne : a ≠ self := fun heq => hc (by rw [heq])
    exact deref_dealloc w w1 a self hw hne h hself
  | add a args =>
    rw [settle_some _ _ h]
    exact deref_of_untouched _ _ self (untouched_add M w a args) hself
  | power a args kwargs =>
    rw [settle_some _ _ h]
    exact deref_of_untouched _ _ self (untouched_power M w a args kwargs) hself
  | value a =>
    rw [settle_some _ _ h]
    exact deref_of_untouched _ _ self (untouched_get_value M w a) hself

theorem deref_run {σ : Type} (M : MathOperations σ) (self : Nat) (calls : List Call) :
    ∀ (w w1 : World σ), Consistent w → Call.destroy self ∉ calls →
      run M w calls = some w1 → (cpp_obj w self).isSome = true →
      (cpp_obj w1 self).isSome = true := by
  induction calls with
  | nil =>
    intro w w1 _ _ h hself
    simp only [run, Option.some.injEq] at h
    exact h ▸ hself
  | cons c cs ih =>
    intro w w1 hw hnot h hself
    simp only [List.mem_cons, not_or] at hnot
    simp only [run] at h
    cases hstep : step M w c with
    | none => simp [hstep] at h
    | some w2 =>
      simp only [hstep] at h
      exact ih w2 w1 (consistent_step M w w2 c hw hstep) hnot.2 h
        (deref_step M w w2 c self hw (fun hc => hnot.1 hc.symm) hstep hself)

/-- A method on a dereferenceable handle does not run into undefined
behaviour. -/
theorem defined_of_deref {σ : Type} (M : MathOperations σ) (w : World σ) (self : Nat)
    (hself : (cpp_obj w self).isSome = true) :
    (∀ args, (PyMathOps_add M w self args).2 ≠ .undefined) ∧
    (∀ args kwargs, (PyMathOps_power M w self args kwargs).2 ≠ .undefined) ∧
    (PyMathOps_get_value M w self).2 ≠ .undefined := by
  obtain ⟨⟨p, st⟩, hobj⟩ := Option.isSome_iff_exists.mp hself
  refine ⟨?_, ?_, ?_⟩
  · intro args
    cases hparse : PyArg_ParseTuple args "d" with
    | error e => simp [PyMathOps_add, hparse]
    | ok vals =>
      obtain ⟨x, rfl⟩ := parse_add_ok args vals hparse
      simp only [PyMathOps_add, hparse, hobj]
      split <;> simp
  · intro args kwargs
    cases hparse : PyArg_ParseTupleAndKeywords args kwargs "d|p" ["exponent", "absolute"] with
    | error e => simp [PyMathOps_power, hparse]
    | ok vals =>
      obtain ⟨e, slot, rfl⟩ := parse_power_ok args kwargs vals hparse
      rw [power_of_parse M w self args kwargs e slot p st hparse hobj]
      split <;> simp
  · simp only [PyMathOps_get_value, hobj]
    split <;> simp

/-- C10: a handle that `PyMathOps_new` returns, in a world reached by any
sequence of calls from the initial world, is a `MathOperations` handle whose
`cpp_obj` is not null; and after any further calls that do not destroy it, its
`cpp_obj` still points to a live native object, so `add`, `power` and the
`value` getter on it dereference no null or dangling pointer. -/
theorem returned_handle_is_dereferenceable {σ : Type} (M : MathOperations σ) (memory : Nat)
    (before later : List Call) (w w1 w2 : World σ) (args : List PyObject)
    (kwargs : List (String × PyObject)) (h : PyObject)
    (hbefore : run M (World.init σ memory) before = some w)
    (hnew : PyMathOps_new M w args kwargs = (w1, .value h))
    (hlater : run M w1 later = some w2) :
    ∃ self, h = .MathOps self ∧
      (∃ c p, find self w1.objects = some ⟨c, some p⟩) ∧
      (Call.destroy self ∉ later →
        (∃ p st, cpp_obj w2 self = some (p, st)) ∧
        (∀ args1, (PyMathOps_add M w2 self args1).2 ≠ .undefined) ∧
        (∀ args1 kwargs1, (PyMathOps_power M w2 self args1 kwargs1).2 ≠ .undefined) ∧
        (PyMathOps_get_value M w2 self).2 ≠ .undefined) := by
  have hw := consistent_run M before _ w (consistent_init σ memory) hbefore
  have hw1 : Consistent w1 := by
    have := consistent_new M w args kwargs hw
    rwa [hnew] at this
  obtain ⟨_, slot, obj, hparse, _⟩ := new_value_inv M w w1 args kwargs h hnew
  obtain ⟨obj1, _, hh, hobj, _, _⟩ :=
    constructedWith_of_parse M w w1 args kwargs h slot hparse hnew
  have hsome : (cpp_obj w1 w.nextObject).isSome = true := by simp [hobj]
  refine ⟨w.nextObject, hh, ?_, ?_⟩
  · obtain ⟨c, p, hc, _⟩ := (cpp_obj_isSome w1 w.nextObject).mp hsome
    exact ⟨c, p, hc⟩
  · intro hkeep
    have hlive := deref_run M w.nextObject later w1 w2 hw1 hkeep hlater hsome
    obtain ⟨⟨p, st⟩, hp⟩ := Option.isSome_iff_exists.mp hlive
    exact ⟨⟨p, st, hp⟩, defined_of_deref M w2 w.nextObject hlive⟩

/-- Witness for C10: the handle 0 constructed in the initial world, after a
second construction, an `add` on handle 0 and the destruction of the second
handle. -/
theorem returned_handle_is_dereferenceable_witness :
    run (scripted none none) (World.init Double 2) [] = some (World.init Double 2) ∧
    PyMathOps_new (scripted none none) (World.init Double 2) [] []
      = ({ oneHandle Double.zero with memory := 1 }, .value (.MathOps 0)) ∧
    run (scripted none none) { oneHandle Double.zero with memory := 1 }
      [.construct [.Float ⟨7⟩] [], .add 0 [.Float ⟨5⟩], .destroy 1] = some exampleLater ∧
    Call.destroy 0 ∉ [Call.construct [.Float ⟨7⟩] [], .add 0 [.Float ⟨5⟩], .destroy 1] ∧
    cpp_obj exampleLater 0 = some (0, ⟨5⟩) ∧
    (PyMathOps_get_value (scripted none none) exampleLater 0).2 ≠ .undefined := by
  obtain ⟨self, hself, _, hrest⟩ :=
    returned_handle_is_dereferenceable (scripted none none) 2 []
      [.construct [.Float ⟨7⟩] [], .add 0 [.Float ⟨5⟩], .destroy 1]
      (World.init Double 2) { oneHandle Double.zero with memory := 1 } exampleLater [] []
      (.MathOps 0) (by decide) (by decide) (by decide)
  cases hself
  exact ⟨by decide, by decide, by decide, by decide, by decide,
    (hrest (by decide)).2.2.2⟩

end PythonWrapper
